import Mathlib

/-!
Shallow embedding of the Library-Management-System core
(`app/models/{book,loan,user,settings}.py`,
 `app/services/library_service.py`, `app/services/settings_service.py`,
 `app/schemas/{book,settings}.py`).

Modelling conventions:
* `datetime` values are seconds since an epoch, as `Int`; `timedelta(days=d)`
  is `d * 86400`; `t.date()` is the floor-division day number `t / 86400`
  (Lean's `Int` division is Euclidean, which floors for a positive divisor,
  exactly like Python's `//`).
* Python `float` money amounts are modelled as `ℚ` (every literal appearing
  in the source — 0.1, 0.5, 0.75, 100.0 — is exactly representable either way,
  and so are all products computed by the service).
* Database tables are lists of records; `id` columns are the integer primary
  keys.  `db.query(T).filter(T.id == k).first()` is `List.find?`; mutating the
  object returned by `.first()` is modelled as mapping the update over the
  (at most one, since `id` is a primary key) record whose id matches.
* `datetime.utcnow()` is passed in as an explicit `now` argument.
* A raised `HTTPException` is an `Except.error`; each service function
  returns the pair of its result and the post-call database state, because
  `confirm_pickup` commits a state change and *then* raises.
-/

namespace LibraryMS

def secPerDay : Int := 86400

/-- `t.date()` for a timestamp in seconds: the day number, floor division. -/
def dayNum (t : Int) : Int := t / secPerDay

/-- `app/models/loan.py` `LoanStatus`. -/
inductive LoanStatus where
  | RESERVED
  | ACTIVE
  | RETURNED
  | EXPIRED
  | OVERDUE
  | CANCELLED
deriving DecidableEq, Repr

/-- `app/models/user.py` `UserRole`. -/
inductive UserRole where
  | ADMIN
  | LIBRARIAN
  | MEMBER
deriving DecidableEq, Repr

/-- `app/models/book.py` `Book` (the columns the core logic reads/writes). -/
structure Book where
  id : Nat
  title : String
  author : String
  isbn : String
  total_copies : Int
  available_copies : Int
  is_available : Bool
deriving DecidableEq, Repr

/-- `app/models/loan.py` `Loan`. -/
structure Loan where
  id : Nat
  user_id : Nat
  book_id : Nat
  status : LoanStatus
  reservation_date : Int
  pickup_deadline : Option Int
  start_date : Option Int
  due_date : Option Int
  returned_at : Option Int
  canceled_at : Option Int
  fine_amount : ℚ
deriving DecidableEq, Repr

/-- `app/models/user.py` `User` (the columns the loan engine reads). -/
structure User where
  id : Nat
  role : UserRole
  is_banned : Bool
deriving DecidableEq, Repr

/-- `app/models/settings.py` `SystemSettings`.  The fields are `Option`s so
that the defensive `is None` checks in `SettingsService.get_settings` can be
embedded as written. -/
structure SystemSettings where
  pickup_window_days : Option Int
  standard_loan_days : Option Int
  daily_fine_amount : Option ℚ
deriving DecidableEq, Repr

/-- The record produced by `SystemSettings()` with its column defaults. -/
def defaultSettings : SystemSettings :=
  { pickup_window_days := some 2
    standard_loan_days := some 30
    daily_fine_amount := some (1/10) }

/-- Attribute access after `get_settings` has populated the fields. -/
def SystemSettings.pickupDays (s : SystemSettings) : Int :=
  s.pickup_window_days.getD 2

def SystemSettings.loanDays (s : SystemSettings) : Int :=
  s.standard_loan_days.getD 30

def SystemSettings.fineRate (s : SystemSettings) : ℚ :=
  s.daily_fine_amount.getD (1/10)

/-- The whole persistent state. -/
structure DB where
  books : List Book
  loans : List Loan
  users : List User
  settings : Option SystemSettings
  nextBookId : Nat
  nextLoanId : Nat
deriving DecidableEq, Repr

/-- A raised `HTTPException`. -/
structure HTTPError where
  status_code : Nat
  detail : String
deriving DecidableEq, Repr

/-- Mutation of the single record whose primary key matches, as done through
the object returned by `.first()`. -/
def updateById {α : Type} (key : α → Nat) (k : Nat) (f : α → α)
    (xs : List α) : List α :=
  xs.map fun x => if key x == k then f x else x

/-- The repeated two-line pattern
`book.available_copies += δ; book.is_available = book.available_copies > 0`. -/
def bumpAvail (δ : Int) (b : Book) : Book :=
  { b with
    available_copies := b.available_copies + δ
    is_available := decide (b.available_copies + δ > 0) }

/-! ### SettingsService (`app/services/settings_service.py`) -/

/-- The normalisation `get_settings` applies to an existing row: `None`
fields get the defaults, and a stored `daily_fine_amount` of exactly `0.0`
or `0.5` is silently coerced back to `0.1`. -/
def normalizeSettings (s : SystemSettings) : SystemSettings :=
  { pickup_window_days :=
      if s.pickup_window_days = none then some 2 else s.pickup_window_days
    standard_loan_days :=
      if s.standard_loan_days = none then some 30 else s.standard_loan_days
    daily_fine_amount :=
      if s.daily_fine_amount = none ∨ s.daily_fine_amount = some 0 ∨
          s.daily_fine_amount = some (1/2) then
        some (1/10)
      else s.daily_fine_amount }

/-- `SettingsService.get_settings`: returns the (normalised) settings row,
creating it with defaults when absent, and persists the normalisation. -/
def getSettings (db : DB) : SystemSettings × DB :=
  match db.settings with
  | some s =>
      let s' := normalizeSettings s
      (s', { db with settings := some s' })
  | none => (defaultSettings, { db with settings := some defaultSettings })

/-- The effective daily fine rate an operation that calls `get_settings`
will compute with. -/
def effFineRate (db : DB) : ℚ := (getSettings db).1.fineRate

def effPickupDays (db : DB) : Int := (getSettings db).1.pickupDays

def effLoanDays (db : DB) : Int := (getSettings db).1.loanDays

/-- `app/schemas/settings.py` `SettingsUpdate` (all three fields required). -/
structure SettingsUpdate where
  pickup_window_days : Int
  standard_loan_days : Int
  daily_fine_amount : ℚ
deriving DecidableEq, Repr

/-- The pydantic `Field` bounds on `SettingsUpdate`. -/
def SettingsUpdate.valid (u : SettingsUpdate) : Prop :=
  1 ≤ u.pickup_window_days ∧ u.pickup_window_days ≤ 14 ∧
  1 ≤ u.standard_loan_days ∧ u.standard_loan_days ≤ 120 ∧
  0 ≤ u.daily_fine_amount ∧ u.daily_fine_amount ≤ 100

instance (u : SettingsUpdate) : Decidable u.valid := by
  unfold SettingsUpdate.valid; infer_instance

/-- One loan's treatment in `SettingsService._recalculate_overdue_fines`:
the query selects ACTIVE/OVERDUE loans with a due date `< now`; for each,
`days_late = (now.date() - due.date()).days`, bumped from 0 to 1, and if
positive the fine is set to `days_late * rate` and the status to OVERDUE. -/
def recalcOverdueLoan (rate : ℚ) (now : Int) (l : Loan) : Loan :=
  if (l.status == LoanStatus.ACTIVE || l.status == LoanStatus.OVERDUE) &&
      (match l.due_date with
       | some d => decide (d < now)
       | none => false) then
    match l.due_date with
    | some due =>
        let dl0 : Int := dayNum now - dayNum due
        let dl : Int := if dl0 = 0 then 1 else dl0
        if dl > 0 then
          { l with fine_amount := (dl : ℚ) * rate, status := LoanStatus.OVERDUE }
        else l
    | none => l
  else l

/-- `SettingsService._recalculate_overdue_fines`. -/
def recalculateOverdueFines (db : DB) (rate : ℚ) (now : Int) : DB :=
  { db with loans := db.loans.map (recalcOverdueLoan rate now) }

/-- `SettingsService.update_settings`: reads (and thereby normalises) the
current row, overwrites the three fields with the update payload, then runs
the retroactive fine recalculation with the freshly written rate. -/
def updateSettings (db : DB) (u : SettingsUpdate) (now : Int) :
    SystemSettings × DB :=
  let db1 := (getSettings db).2
  let s : SystemSettings :=
    { pickup_window_days := some u.pickup_window_days
      standard_loan_days := some u.standard_loan_days
      daily_fine_amount := some u.daily_fine_amount }
  let db2 := { db1 with settings := some s }
  let db3 := recalculateOverdueFines db2 s.fineRate now
  (s, db3)

/-! ### LibraryService (`app/services/library_service.py`) -/

/-- `app/schemas/book.py` `BookCreate` after `model_dump()` (the schema gives
`total_copies` and `available_copies` defaults of 1, so the dumped payload
always carries integers and the `payload.get("available_copies") is None`
branch of `create_book` is unreachable through this schema). -/
structure BookCreate where
  title : String
  author : String
  isbn : String
  total_copies : Int
  available_copies : Int
deriving DecidableEq, Repr

/-- The pydantic `Field` bounds on `BookCreate`. -/
def BookCreate.valid (d : BookCreate) : Prop :=
  1 ≤ d.total_copies ∧ d.total_copies ≤ 1000 ∧
  0 ≤ d.available_copies ∧ d.available_copies ≤ 1000

instance (d : BookCreate) : Decidable d.valid := by
  unfold BookCreate.valid; infer_instance

/-- `LibraryService.create_book`: clamps `available_copies` to
`min(available_copies, total_copies)` and inserts the row.  `is_available`
is not in the payload, so it takes its column default `True`.  A duplicate
ISBN raises 400 (the `IntegrityError` branch) and rolls back. -/
def createBook (db : DB) (d : BookCreate) : Except HTTPError Book × DB :=
  if db.books.any (fun b => b.isbn == d.isbn) then
    (.error { status_code := 400, detail := "Book with this ISBN already exists" }, db)
  else
    let book : Book :=
      { id := db.nextBookId
        title := d.title
        author := d.author
        isbn := d.isbn
        total_copies := d.total_copies
        available_copies := min d.available_copies d.total_copies
        is_available := true }
    (.ok book,
     { db with books := db.books ++ [book], nextBookId := db.nextBookId + 1 })

/-- `app/schemas/book.py` `BookUpdate` after `model_dump(exclude_unset=True)`:
`none` means the field was not in the payload. -/
structure BookUpdate where
  title : Option String
  author : Option String
  isbn : Option String
  total_copies : Option Int
  available_copies : Option Int
deriving DecidableEq, Repr

/-- The `setattr` loop of `update_book`. -/
def applyBookUpdate (u : BookUpdate) (b : Book) : Book :=
  { b with
    title := u.title.getD b.title
    author := u.author.getD b.author
    isbn := u.isbn.getD b.isbn
    total_copies := u.total_copies.getD b.total_copies
    available_copies := u.available_copies.getD b.available_copies }

/-- `LibraryService.update_book`: applies the partial update, and when a copy
count was in the payload clamps `available_copies` down to `total_copies`.
`is_available` is not recomputed here. -/
def updateBook (db : DB) (book_id : Nat) (u : BookUpdate) :
    Except HTTPError Book × DB :=
  match db.books.find? (fun b => b.id == book_id) with
  | none => (.error { status_code := 404, detail := "Book not found" }, db)
  | some b0 =>
      let f : Book → Book := fun b =>
        let b1 := applyBookUpdate u b
        if (u.total_copies.isSome || u.available_copies.isSome) &&
            b1.available_copies > b1.total_copies then
          { b1 with available_copies := b1.total_copies }
        else b1
      (.ok (f b0),
       { db with books := updateById Book.id book_id f db.books })

/-- The filter of the `recent_cancel` query in `reserve_book`: a CANCELLED
loan of this user for this book whose `canceled_at` is within the last
24 hours (`canceled_at > now - timedelta(days=1)`). -/
def recentCancelFilter (user_id book_id : Nat) (now : Int) (l : Loan) : Bool :=
  l.user_id == user_id && l.book_id == book_id &&
  l.status == LoanStatus.CANCELLED &&
  (match l.canceled_at with
   | some c => decide (c > now - secPerDay)
   | none => false)

/-- `LibraryService.reserve_book`. -/
def reserveBook (db : DB) (user_id : Nat) (book_id : Nat) (now : Int) :
    Except HTTPError Loan × DB :=
  match db.books.find? (fun b => b.id == book_id) with
  | none => (.error { status_code := 404, detail := "Book not found" }, db)
  | some book =>
      if book.available_copies ≤ 0 then
        (.error { status_code := 400, detail := "Book is not available for reservation" }, db)
      else
        match db.users.find? (fun u => u.id == user_id) with
        | none => (.error { status_code := 404, detail := "User not found" }, db)
        | some user =>
            if user.is_banned then
              (.error { status_code := 403, detail := "You are banned from reserving books" }, db)
            else if (db.loans.find? (recentCancelFilter user_id book_id now)).isSome then
              (.error { status_code := 400, detail := "You must wait 24 hours before reserving this book again" }, db)
            else
              let sdb := getSettings db
              let db1 := sdb.2
              let loan : Loan :=
                { id := db1.nextLoanId
                  user_id := user_id
                  book_id := book_id
                  status := LoanStatus.RESERVED
                  reservation_date := now
                  pickup_deadline := some (now + sdb.1.pickupDays * secPerDay)
                  start_date := none
                  due_date := none
                  returned_at := none
                  canceled_at := none
                  fine_amount := 0 }
              (.ok loan,
               { db1 with
                 books := updateById Book.id book_id (bumpAvail (-1)) db1.books
                 loans := db1.loans ++ [loan]
                 nextLoanId := db1.nextLoanId + 1 })

/-- `LibraryService.confirm_pickup`. -/
def confirmPickup (db : DB) (loan_id : Nat) (now : Int) :
    Except HTTPError Loan × DB :=
  match db.loans.find? (fun l => l.id == loan_id) with
  | none => (.error { status_code := 404, detail := "Loan not found" }, db)
  | some loan =>
      if loan.status ≠ LoanStatus.RESERVED then
        (.error { status_code := 400, detail := "Only reserved loans can be picked up" }, db)
      else
        match loan.pickup_deadline with
        | some dl =>
            if now > dl then
              -- expired: commit EXPIRED status plus the copy release, then raise
              (.error { status_code := 400, detail := "Reservation has expired" },
               { db with
                 loans := updateById Loan.id loan_id
                   (fun l => { l with status := LoanStatus.EXPIRED }) db.loans
                 books := updateById Book.id loan.book_id (bumpAvail 1) db.books })
            else
              let sdb := getSettings db
              let loan' :=
                { loan with
                  status := LoanStatus.ACTIVE
                  start_date := some now
                  due_date := some (now + sdb.1.loanDays * secPerDay) }
              (.ok loan',
               { sdb.2 with
                 loans := updateById Loan.id loan_id (fun _ => loan') sdb.2.loans })
        | none =>
            -- `if loan.pickup_deadline and now > ...` is False: proceed to pickup
            let sdb := getSettings db
            let loan' :=
              { loan with
                status := LoanStatus.ACTIVE
                start_date := some now
                due_date := some (now + sdb.1.loanDays * secPerDay) }
            (.ok loan',
             { sdb.2 with
               loans := updateById Loan.id loan_id (fun _ => loan') sdb.2.loans })

/-- `LibraryService.assign_loan`. -/
def assignLoan (db : DB) (user_id : Nat) (book_id : Nat) (now : Int) :
    Except HTTPError Loan × DB :=
  match db.users.find? (fun u => u.id == user_id) with
  | none => (.error { status_code := 404, detail := "User not found" }, db)
  | some user =>
      if user.role ≠ UserRole.MEMBER then
        (.error { status_code := 400, detail := "Loans can only be assigned to members" }, db)
      else if user.is_banned then
        (.error { status_code := 403, detail := "User is banned from reserving books" }, db)
      else
        match db.books.find? (fun b => b.id == book_id) with
        | none => (.error { status_code := 404, detail := "Book not found" }, db)
        | some book =>
            if book.available_copies ≤ 0 then
              (.error { status_code := 400, detail := "Book is not available for loan" }, db)
            else
              let sdb := getSettings db
              let db1 := sdb.2
              let loan : Loan :=
                { id := db1.nextLoanId
                  user_id := user_id
                  book_id := book_id
                  status := LoanStatus.ACTIVE
                  reservation_date := now
                  pickup_deadline := none
                  start_date := some now
                  due_date := some (now + sdb.1.loanDays * secPerDay)
                  returned_at := none
                  canceled_at := none
                  fine_amount := 0 }
              (.ok loan,
               { db1 with
                 books := updateById Book.id book_id (bumpAvail (-1)) db1.books
                 loans := db1.loans ++ [loan]
                 nextLoanId := db1.nextLoanId + 1 })

/-- `LibraryService.return_book`. -/
def returnBook (db : DB) (loan_id : Nat) (now : Int) :
    Except HTTPError Loan × DB :=
  match db.loans.find? (fun l => l.id == loan_id) with
  | none => (.error { status_code := 404, detail := "Loan not found" }, db)
  | some loan =>
      if ¬(loan.status = LoanStatus.ACTIVE ∨ loan.status = LoanStatus.OVERDUE) then
        (.error { status_code := 400, detail := "Only active loans can be returned" }, db)
      else
        -- `fine_amount = 0.0; if loan.due_date and now > loan.due_date: ...`
        let fined : Loan × DB :=
          match loan.due_date with
          | some due =>
              if now > due then
                let sdb := getSettings db
                let dl0 : Int := dayNum now - dayNum due
                let dl : Int := if dl0 = 0 then 1 else dl0
                if dl > 0 then
                  ({ loan with fine_amount := (dl : ℚ) * sdb.1.fineRate }, sdb.2)
                else (loan, sdb.2)
              else (loan, db)
          | none => (loan, db)
        let loan2 :=
          { fined.1 with status := LoanStatus.RETURNED, returned_at := some now }
        (.ok loan2,
         { fined.2 with
           loans := updateById Loan.id loan_id (fun _ => loan2) fined.2.loans
           books := updateById Book.id loan.book_id (bumpAvail 1) fined.2.books })

/-- `LibraryService.cancel_reservation`. -/
def cancelReservation (db : DB) (user_id : Nat) (loan_id : Nat) (now : Int) :
    Except HTTPError Loan × DB :=
  match db.loans.find? (fun l => l.id == loan_id) with
  | none => (.error { status_code := 404, detail := "Loan not found" }, db)
  | some loan =>
      if loan.user_id ≠ user_id then
        (.error { status_code := 403, detail := "You can only cancel your own reservations" }, db)
      else if loan.status ≠ LoanStatus.RESERVED then
        (.error { status_code := 400, detail := "Only reserved loans can be cancelled" }, db)
      else
        let loan' :=
          { loan with status := LoanStatus.CANCELLED, canceled_at := some now }
        (.ok loan',
         { db with
           loans := updateById Loan.id loan_id (fun _ => loan') db.loans
           books := updateById Book.id loan.book_id (bumpAvail 1) db.books })

/-- The per-loan condition of `_mark_overdue`:
`loan.status in [ACTIVE, OVERDUE] and loan.due_date and now > loan.due_date`. -/
def loanQualifies (now : Int) (l : Loan) : Bool :=
  (l.status == LoanStatus.ACTIVE || l.status == LoanStatus.OVERDUE) &&
  (match l.due_date with
   | some d => decide (now > d)
   | none => false)

/-- One loan's treatment in `_mark_overdue`: status set to OVERDUE
unconditionally for a qualifying loan, then the fine recomputation with the
0-to-1 bump. -/
def sweepLoan (rate : ℚ) (now : Int) (l : Loan) : Loan :=
  if loanQualifies now l then
    let l1 := { l with status := LoanStatus.OVERDUE }
    match l1.due_date with
    | some due =>
        let dl0 : Int := dayNum now - dayNum due
        let dl : Int := if dl0 = 0 then 1 else dl0
        if dl > 0 then { l1 with fine_amount := (dl : ℚ) * rate } else l1
    | none => l1
  else l

/-- `LibraryService._mark_overdue`, run (as `get_user_loans`/`get_all_loans`
do) over the loan table.  Settings are fetched lazily: only when some loan
qualifies does `get_settings` run (and persist its normalisation). -/
def markOverdue (db : DB) (now : Int) : DB :=
  if db.loans.any (loanQualifies now) then
    let sdb := getSettings db
    { sdb.2 with loans := sdb.2.loans.map (sweepLoan sdb.1.fineRate now) }
  else db

/-! ### Generic lemmas about the embedding's primitives -/

theorem updateById_nil {α : Type} (key : α → Nat) (k : Nat) (f : α → α) :
    updateById key k f [] = [] := rfl

theorem updateById_cons {α : Type} (key : α → Nat) (k : Nat) (f : α → α)
    (x : α) (xs : List α) :
    updateById key k f (x :: xs)
      = (if key x == k then f x else x) :: updateById key k f xs := rfl

theorem updateById_append {α : Type} (key : α → Nat) (k : Nat) (f : α → α)
    (xs ys : List α) :
    updateById key k f (xs ++ ys)
      = updateById key k f xs ++ updateById key k f ys := by
  simp [updateById]

/-- If no element matches the key, `updateById` is the identity. -/
theorem updateById_eq_self {α : Type} (key : α → Nat) (k : Nat) (f : α → α)
    {xs : List α} (h : ∀ x ∈ xs, key x ≠ k) : updateById key k f xs = xs := by
  induction xs with
  | nil => rfl
  | cons y ys ih =>
      rw [updateById_cons, if_neg, ih fun x hx => h x (List.mem_cons_of_mem y hx)]
      simp [h y (List.mem_cons_self y ys)]

/-- Splitting a list at the first element matching the key, when the keys are
pairwise distinct: `updateById` rewrites exactly that element. -/
theorem updateById_decomp {α : Type} (key : α → Nat) (k : Nat) (f : α → α)
    {xs : List α} {x : α}
    (hnd : (xs.map key).Nodup)
    (hfind : xs.find? (fun y => key y == k) = some x) :
    ∃ l1 l2, xs = l1 ++ x :: l2 ∧
      updateById key k f xs = l1 ++ f x :: l2 ∧
      (∀ y ∈ l1, key y ≠ k) ∧ (∀ y ∈ l2, key y ≠ k) ∧ key x = k := by
  induction xs with
  | nil => simp [List.find?] at hfind
  | cons y ys ih =>
      rw [List.find?_cons] at hfind
      by_cases hy : key y = k
      · have hyt : (key y == k) = true := by simpa using hy
        simp only [hyt] at hfind
        obtain rfl : y = x := by injection hfind
        refine ⟨[], ys, by simp, ?_, by simp, ?_, hy⟩
        · rw [updateById_cons, if_pos (by simpa using hy)]
          have hys : ∀ z ∈ ys, key z ≠ k := by
            intro z hz hzk
            have : key y ∈ ys.map key := by
              rw [hy, ← hzk]; exact List.mem_map_of_mem key hz
            exact (List.nodup_cons.mp hnd).1 this
          rw [updateById_eq_self key k f hys]; rfl
        · intro z hz hzk
          have : key y ∈ ys.map key := by
            rw [hy, ← hzk]; exact List.mem_map_of_mem key hz
          exact (List.nodup_cons.mp hnd).1 this
      · have hyf : (key y == k) = false := by simpa using hy
        simp only [hyf] at hfind
        obtain ⟨l1, l2, hxs, hupd, h1, h2, hk⟩ :=
          ih (List.nodup_cons.mp (by simpa using hnd)).2 hfind
        refine ⟨y :: l1, l2, by rw [hxs]; rfl, ?_, ?_, h2, hk⟩
        · rw [updateById_cons, if_neg (by simpa using hy), hupd]; rfl
        · intro z hz
          rcases List.mem_cons.mp hz with rfl | hz
          · exact hy
          · exact h1 z hz

/-- Membership in an updated table. -/
theorem mem_updateById {α : Type} {key : α → Nat} {k : Nat} {f : α → α}
    {xs : List α} {x' : α} (h : x' ∈ updateById key k f xs) :
    ∃ x ∈ xs, x' = if key x == k then f x else x := by
  obtain ⟨x, hx, hfx⟩ := List.mem_map.mp h
  exact ⟨x, hx, hfx.symm⟩

/-- Looking up key `m` after an update that preserves all keys. -/
theorem find?_updateById {α : Type} (key : α → Nat) (k m : Nat) (f : α → α)
    (hf : ∀ x, key (f x) = key x) (xs : List α) :
    (updateById key k f xs).find? (fun x => key x == m)
      = (xs.find? (fun x => key x == m)).map
          (fun x => if key x == k then f x else x) := by
  induction xs with
  | nil => rfl
  | cons y ys ih =>
      rw [updateById_cons, List.find?_cons, List.find?_cons]
      by_cases hym : key y = m
      · have h1 : (key (if key y == k then f y else y) == m) = true := by
          split <;> simp [hf, hym]
        have h2 : (key y == m) = true := by simpa using hym
        rw [h1, h2]; simp
      · have h1 : (key (if key y == k then f y else y) == m) = false := by
          split <;> simp [hf, hym]
        have h2 : (key y == m) = false := by simpa using hym
        rw [h1, h2]; simpa using ih

/-- Looking up the updated key itself, when the update keeps matching
elements under that key. -/
theorem find?_self_updateById {α : Type} (key : α → Nat) (k : Nat) (f : α → α)
    (hf : ∀ x, key x = k → key (f x) = k) (xs : List α) :
    (updateById key k f xs).find? (fun x => key x == k)
      = (xs.find? (fun x => key x == k)).map f := by
  induction xs with
  | nil => rfl
  | cons y ys ih =>
      rw [updateById_cons, List.find?_cons, List.find?_cons]
      by_cases hy : key y = k
      · have h1 : (key (if key y == k then f y else y) == k) = true := by
          rw [if_pos (by simpa using hy)]; simpa using hf y hy
        rw [h1, if_pos (by simpa using hy)]
        simp [hy]
      · have h1 : (key (if key y == k then f y else y) == k) = false := by
          rw [if_neg (by simpa using hy)]; simpa using hy
        have h2 : (key y == k) = false := by simpa using hy
        rw [h1, h2]; simpa using ih

/-- An update along a key-preserving function leaves the key column alone. -/
theorem map_key_updateById {α : Type} (key : α → Nat) (k : Nat) (f : α → α)
    (hf : ∀ x, key (f x) = key x) (xs : List α) :
    (updateById key k f xs).map key = xs.map key := by
  unfold updateById
  rw [List.map_map]
  refine List.map_congr_left fun x _ => ?_
  by_cases h : key x = k <;> simp [h, hf]

theorem dayNum_mono {a b : Int} (h : a ≤ b) : dayNum a ≤ dayNum b :=
  Int.ediv_le_ediv (by decide) h

/-- The `days_late` bump in the source (`if days_late == 0: days_late = 1`)
computes `max 1 days_late` whenever the loan is actually late. -/
theorem daysLate_eq_max {now due : Int} (h : due < now) :
    (if dayNum now - dayNum due = 0 then 1 else dayNum now - dayNum due)
      = max 1 (dayNum now - dayNum due) ∧
    (0 : Int) < (if dayNum now - dayNum due = 0 then 1 else dayNum now - dayNum due) := by
  have h0 : 0 ≤ dayNum now - dayNum due := by
    have := dayNum_mono (le_of_lt h); omega
  constructor <;> (split <;> omega)

/-! ### Lemmas about `getSettings` -/

theorem getSettings_snd (db : DB) :
    (getSettings db).2 = { db with settings := some (getSettings db).1 } := by
  cases h : db.settings <;> simp [getSettings, h]

theorem getSettings_books (db : DB) : (getSettings db).2.books = db.books := by
  rw [getSettings_snd]

theorem getSettings_loans (db : DB) : (getSettings db).2.loans = db.loans := by
  rw [getSettings_snd]

theorem getSettings_users (db : DB) : (getSettings db).2.users = db.users := by
  rw [getSettings_snd]

theorem getSettings_nextBookId (db : DB) :
    (getSettings db).2.nextBookId = db.nextBookId := by
  rw [getSettings_snd]

theorem getSettings_nextLoanId (db : DB) :
    (getSettings db).2.nextLoanId = db.nextLoanId := by
  rw [getSettings_snd]

theorem normalizeSettings_idem (s : SystemSettings) :
    normalizeSettings (normalizeSettings s) = normalizeSettings s := by
  unfold normalizeSettings
  obtain ⟨p, l, d⟩ := s
  simp only [SystemSettings.mk.injEq]
  refine ⟨?_, ?_, ?_⟩
  · cases p <;> simp
  · cases l <;> simp
  · cases d with
    | none => simp
    | some q =>
        by_cases h0 : q = 0
        · simp [h0]
        · by_cases h5 : q = (2 : ℚ)⁻¹
          · simp [h5]
          · simp [h0, h5, one_div]

theorem normalizeSettings_default :
    normalizeSettings defaultSettings = defaultSettings := by
  simp [normalizeSettings, defaultSettings]

/-- The settings row `get_settings` leaves behind is a fixed point of the
normalisation, so a second read returns it unchanged. -/
theorem getSettings_fixed (db : DB) :
    getSettings (getSettings db).2 = ((getSettings db).1, (getSettings db).2) := by
  cases h : db.settings with
  | none =>
      simp [getSettings, h, normalizeSettings_default]
  | some s =>
      simp [getSettings, h, normalizeSettings_idem]

/-! ### The copy-accounting invariant -/

/-- Statuses in which a loan holds one physical copy of its book (the spec's
"loans currently in RESERVED or ACTIVE/OVERDUE state"). -/
def Loan.holdsCopy (l : Loan) : Bool :=
  l.status == LoanStatus.RESERVED || l.status == LoanStatus.ACTIVE ||
  l.status == LoanStatus.OVERDUE

/-- Number of copies of book `bid` currently held by loans. -/
def heldFor (loans : List Loan) (bid : Nat) : Nat :=
  loans.countP (fun l => l.book_id == bid && l.holdsCopy)

/-- The inductive invariant of the service state: copy counts are
non-negative and leave room for every held copy, and primary keys are
below the id counters and pairwise distinct. -/
structure DBInv (db : DB) : Prop where
  avail_nonneg : ∀ b ∈ db.books, 0 ≤ b.available_copies
  avail_held : ∀ b ∈ db.books,
    b.available_copies + (heldFor db.loans b.id : Int) ≤ b.total_copies
  book_id_lt : ∀ b ∈ db.books, b.id < db.nextBookId
  loan_id_lt : ∀ l ∈ db.loans, l.id < db.nextLoanId
  loan_book_lt : ∀ l ∈ db.loans, l.book_id < db.nextBookId
  book_nodup : (db.books.map Book.id).Nodup
  loan_nodup : (db.loans.map Loan.id).Nodup

/-- `DBInv` only looks at the four fields it mentions. -/
theorem DBInv.of_eq {db db' : DB} (h : DBInv db)
    (hb : db'.books = db.books) (hl : db'.loans = db.loans)
    (hnb : db'.nextBookId = db.nextBookId)
    (hnl : db'.nextLoanId = db.nextLoanId) : DBInv db' := by
  refine ⟨?_, ?_, ?_, ?_, ?_, ?_, ?_⟩
  · rw [hb]; exact h.avail_nonneg
  · rw [hb, hl]; exact h.avail_held
  · rw [hb, hnb]; exact h.book_id_lt
  · rw [hl, hnl]; exact h.loan_id_lt
  · rw [hl, hnb]; exact h.loan_book_lt
  · rw [hb]; exact h.book_nodup
  · rw [hl]; exact h.loan_nodup

theorem DBInv.after_getSettings {db : DB} (h : DBInv db) :
    DBInv (getSettings db).2 :=
  h.of_eq (getSettings_books db) (getSettings_loans db)
    (getSettings_nextBookId db) (getSettings_nextLoanId db)

/-- Inserting a fresh book whose counts satisfy the bound. -/
theorem DBInv.create {db : DB} (h : DBInv db) {book : Book}
    (hid : book.id = db.nextBookId) (h0 : 0 ≤ book.available_copies)
    (hle : book.available_copies ≤ book.total_copies) :
    DBInv { db with
            books := db.books ++ [book]
            nextBookId := db.nextBookId + 1 } := by
  have hfresh : ∀ l ∈ db.loans, ¬((fun l => l.book_id == book.id && l.holdsCopy) l = true) := by
    intro l hl hq
    have h1 : l.book_id = book.id := by
      have := (Bool.and_eq_true _ _).mp hq
      simpa using this.1
    have := h.loan_book_lt l hl
    omega
  have hheld0 : heldFor db.loans book.id = 0 :=
    List.countP_eq_zero.mpr hfresh
  refine ⟨?_, ?_, ?_, ?_, ?_, ?_, ?_⟩ <;> dsimp only
  · intro b hb
    rcases List.mem_append.mp hb with hb | hb
    · exact h.avail_nonneg b hb
    · rcases List.mem_singleton.mp hb with rfl
      exact h0
  · intro b hb
    rcases List.mem_append.mp hb with hb | hb
    · exact h.avail_held b hb
    · rcases List.mem_singleton.mp hb with rfl
      rw [heldFor] at hheld0 ⊢
      rw [hheld0]
      simpa using hle
  · intro b hb
    rcases List.mem_append.mp hb with hb | hb
    · have := h.book_id_lt b hb; omega
    · rcases List.mem_singleton.mp hb with rfl
      omega
  · intro l hl; exact h.loan_id_lt l hl
  · intro l hl
    have := h.loan_book_lt l hl; omega
  · rw [List.map_append]
    rw [List.nodup_append]
    refine ⟨h.book_nodup, by simp, ?_⟩
    intro i hi hi'
    simp only [List.map_cons, List.map_nil, List.mem_singleton] at hi'
    obtain ⟨b, hb, rfl⟩ := List.mem_map.mp hi
    have := h.book_id_lt b hb
    omega
  · exact h.loan_nodup

/-- Taking one copy: decrement the (unique) matching book, append a loan in
a copy-holding status with a fresh id for that book. -/
theorem DBInv.acquire {db : DB} (h : DBInv db) {bid : Nat} {book : Book}
    (hfind : db.books.find? (fun b => b.id == bid) = some book)
    (havail : 0 < book.available_copies)
    {loan : Loan} (hid : loan.id = db.nextLoanId) (hbid : loan.book_id = bid)
    (hholds : loan.holdsCopy = true) :
    DBInv { db with
            books := updateById Book.id bid (bumpAvail (-1)) db.books
            loans := db.loans ++ [loan]
            nextLoanId := db.nextLoanId + 1 } := by
  obtain ⟨l1, l2, hxs, hupd, h1, h2, hk⟩ :=
    updateById_decomp Book.id bid (bumpAvail (-1)) h.book_nodup hfind
  have hbmem : book ∈ db.books := List.mem_of_find?_eq_some hfind
  have hheld : ∀ m : Nat, heldFor (db.loans ++ [loan]) m
      = heldFor db.loans m + (if m = bid then 1 else 0) := by
    intro m
    rw [heldFor, heldFor, List.countP_append]
    congr 1
    rw [List.countP_cons, List.countP_nil]
    by_cases hm : m = bid
    · simp [hbid, hm, hholds]
    · have hf : (loan.book_id == m) = false := by
        rw [hbid]; simp; omega
      simp [hf, hm]
  have hmem_old : ∀ b, b ∈ l1 ∨ b ∈ l2 → b ∈ db.books := by
    intro b hb
    rw [hxs]
    rcases hb with hb | hb
    · exact List.mem_append_left _ hb
    · exact List.mem_append_right _ (List.mem_cons_of_mem _ hb)
  refine ⟨?_, ?_, ?_, ?_, ?_, ?_, ?_⟩ <;> dsimp only
  · intro b hb
    rw [hupd] at hb
    rcases List.mem_append.mp hb with hb | hb
    · exact h.avail_nonneg b (hmem_old b (Or.inl hb))
    · rcases List.mem_cons.mp hb with rfl | hb
      · show 0 ≤ book.available_copies + (-1)
        omega
      · exact h.avail_nonneg b (hmem_old b (Or.inr hb))
  · intro b hb
    rw [hupd] at hb
    rcases List.mem_append.mp hb with hb | hb
    · rw [hheld, if_neg (h1 b hb)]
      simpa using h.avail_held b (hmem_old b (Or.inl hb))
    · rcases List.mem_cons.mp hb with rfl | hb
      · have hold := h.avail_held book hbmem
        show book.available_copies + (-1) +
          ((heldFor (db.loans ++ [loan]) book.id : ℕ) : ℤ) ≤ book.total_copies
        rw [hheld book.id, if_pos hk]
        push_cast
        push_cast at hold
        omega
      · rw [hheld, if_neg (h2 b hb)]
        simpa using h.avail_held b (hmem_old b (Or.inr hb))
  · intro b hb
    rw [hupd] at hb
    rcases List.mem_append.mp hb with hb | hb
    · exact h.book_id_lt b (hmem_old b (Or.inl hb))
    · rcases List.mem_cons.mp hb with rfl | hb
      · show (bumpAvail (-1) book).id < db.nextBookId
        exact h.book_id_lt book hbmem
      · exact h.book_id_lt b (hmem_old b (Or.inr hb))
  · intro l hl
    rcases List.mem_append.mp hl with hl | hl
    · have := h.loan_id_lt l hl; omega
    · rcases List.mem_singleton.mp hl with rfl
      omega
  · intro l hl
    rcases List.mem_append.mp hl with hl | hl
    · exact h.loan_book_lt l hl
    · rcases List.mem_singleton.mp hl with rfl
      rw [hbid, ← hk]
      exact h.book_id_lt book hbmem
  · show ((updateById Book.id bid (bumpAvail (-1)) db.books).map Book.id).Nodup
    rw [map_key_updateById Book.id bid (bumpAvail (-1)) (fun b => rfl) db.books]
    exact h.book_nodup
  · rw [List.map_append, List.nodup_append]
    refine ⟨h.loan_nodup, by simp, ?_⟩
    intro i hi hi'
    simp only [List.map_cons, List.map_nil, List.mem_singleton] at hi'
    obtain ⟨l, hl, rfl⟩ := List.mem_map.mp hi
    have := h.loan_id_lt l hl
    rw [hi', hid] at this
    omega

theorem countP_cons_true {α : Type} {p : α → Bool} {a : α} (h : p a = true)
    (l : List α) : List.countP p (a :: l) = List.countP p l + 1 := by
  rw [List.countP_cons, h]; simp

theorem countP_cons_false {α : Type} {p : α → Bool} {a : α} (h : p a = false)
    (l : List α) : List.countP p (a :: l) = List.countP p l := by
  rw [List.countP_cons, h]; simp

/-- Releasing one copy: the (unique) loan matching `lid`, currently holding
a copy, moves to a non-holding record `g loan`, and its book's
`available_copies` is bumped by one. -/
theorem DBInv.release {db : DB} (h : DBInv db) {lid : Nat} {loan : Loan}
    (hfind : db.loans.find? (fun l => l.id == lid) = some loan)
    (hholds : loan.holdsCopy = true)
    {g : Loan → Loan}
    (hgid : (g loan).id = loan.id) (hgbid : (g loan).book_id = loan.book_id)
    (hgh : (g loan).holdsCopy = false) :
    DBInv { db with
            loans := updateById Loan.id lid g db.loans
            books := updateById Book.id loan.book_id (bumpAvail 1) db.books } := by
  obtain ⟨m1, m2, hls, hlupd, hm1, hm2, hlk⟩ :=
    updateById_decomp Loan.id lid g h.loan_nodup hfind
  have hlmem : loan ∈ db.loans := List.mem_of_find?_eq_some hfind
  have hq1 : ∀ m : Nat, ((g loan).book_id == m && (g loan).holdsCopy) = false := by
    intro m; rw [hgh, Bool.and_false]
  have hq2 : ∀ m : Nat, (loan.book_id == m && loan.holdsCopy) = (loan.book_id == m) := by
    intro m; rw [hholds, Bool.and_true]
  have hheld : ∀ m : Nat, (heldFor (updateById Loan.id lid g db.loans) m : Int)
      = (heldFor db.loans m : Int) - (if loan.book_id = m then 1 else 0) := by
    intro m
    simp only [heldFor]
    conv_rhs => rw [hls]
    rw [hlupd, List.countP_append, List.countP_append,
        @countP_cons_false Loan (fun l => l.book_id == m && l.holdsCopy)
          (g loan) (hq1 m) m2]
    by_cases hm : loan.book_id = m
    · rw [if_pos hm,
          @countP_cons_true Loan (fun l => l.book_id == m && l.holdsCopy)
            loan (by show (loan.book_id == m && loan.holdsCopy) = true
                     rw [hq2 m]; simpa using hm) m2]
      push_cast
      omega
    · rw [if_neg hm,
          @countP_cons_false Loan (fun l => l.book_id == m && l.holdsCopy)
            loan (by show (loan.book_id == m && loan.holdsCopy) = false
                     rw [hq2 m]; simpa using hm) m2]
      push_cast
      omega
  have hheld_ge : ∀ m : Nat, loan.book_id = m → 1 ≤ heldFor db.loans m := by
    intro m hm
    simp only [heldFor]
    rw [hls, List.countP_append,
        @countP_cons_true Loan (fun l => l.book_id == m && l.holdsCopy)
          loan (by show (loan.book_id == m && loan.holdsCopy) = true
                   rw [hq2 m]; simpa using hm) m2]
    omega
  refine ⟨?_, ?_, ?_, ?_, ?_, ?_, ?_⟩ <;> dsimp only
  · intro b hb
    obtain ⟨b0, hb0, rfl⟩ := mem_updateById hb
    split
    · show 0 ≤ b0.available_copies + 1
      have := h.avail_nonneg b0 hb0; omega
    · exact h.avail_nonneg b0 hb0
  · intro b hb
    obtain ⟨b0, hb0, rfl⟩ := mem_updateById hb
    have hold := h.avail_held b0 hb0
    split
    · next hcase =>
        have hm : loan.book_id = b0.id := by
          have : b0.id = loan.book_id := by simpa using hcase
          omega
        show b0.available_copies + 1 +
          ((heldFor (updateById Loan.id lid g db.loans) b0.id : ℕ) : ℤ) ≤ b0.total_copies
        have hge := hheld_ge b0.id hm
        have heq := hheld b0.id
        rw [if_pos hm] at heq
        omega
    · next hcase =>
        have hm : ¬(loan.book_id = b0.id) := by
          intro hcon
          exact hcase (by simpa using hcon.symm)
        have heq := hheld b0.id
        rw [if_neg hm] at heq
        omega
  · intro b hb
    obtain ⟨b0, hb0, rfl⟩ := mem_updateById hb
    have := h.book_id_lt b0 hb0
    split
    · show b0.id < db.nextBookId; exact this
    · exact this
  · intro l hl
    rw [hlupd] at hl
    rcases List.mem_append.mp hl with hl | hl
    · exact h.loan_id_lt l (by rw [hls]; exact List.mem_append_left _ hl)
    · rcases List.mem_cons.mp hl with rfl | hl
      · rw [hgid]; exact h.loan_id_lt loan hlmem
      · exact h.loan_id_lt l
          (by rw [hls]; exact List.mem_append_right _ (List.mem_cons_of_mem _ hl))
  · intro l hl
    rw [hlupd] at hl
    rcases List.mem_append.mp hl with hl | hl
    · exact h.loan_book_lt l (by rw [hls]; exact List.mem_append_left _ hl)
    · rcases List.mem_cons.mp hl with rfl | hl
      · rw [hgbid]; exact h.loan_book_lt loan hlmem
      · exact h.loan_book_lt l
          (by rw [hls]; exact List.mem_append_right _ (List.mem_cons_of_mem _ hl))
  · rw [map_key_updateById Book.id loan.book_id (bumpAvail 1) (fun b => rfl) db.books]
    exact h.book_nodup
  · rw [hlupd, List.map_append, List.map_cons, hgid]
    have : (List.map Loan.id (m1 ++ loan :: m2)).Nodup := by
      rw [← hls]; exact h.loan_nodup
    rwa [List.map_append, List.map_cons] at this

/-- Updating the (unique) loan matching `lid` in a way that keeps its id,
its book and whether it holds a copy. -/
theorem DBInv.update_loan {db : DB} (h : DBInv db) {lid : Nat} {loan : Loan}
    (hfind : db.loans.find? (fun l => l.id == lid) = some loan)
    {g : Loan → Loan}
    (hgid : (g loan).id = loan.id) (hgbid : (g loan).book_id = loan.book_id)
    (hgh : (g loan).holdsCopy = loan.holdsCopy) :
    DBInv { db with loans := updateById Loan.id lid g db.loans } := by
  obtain ⟨m1, m2, hls, hlupd, hm1, hm2, hlk⟩ :=
    updateById_decomp Loan.id lid g h.loan_nodup hfind
  have hlmem : loan ∈ db.loans := List.mem_of_find?_eq_some hfind
  have hq : ∀ m : Nat, ((g loan).book_id == m && (g loan).holdsCopy)
      = (loan.book_id == m && loan.holdsCopy) := by
    intro m; rw [hgh, hgbid]
  have hheld : ∀ m : Nat, heldFor (updateById Loan.id lid g db.loans) m
      = heldFor db.loans m := by
    intro m
    simp only [heldFor]
    conv_rhs => rw [hls]
    rw [hlupd, List.countP_append, List.countP_append,
        List.countP_cons, List.countP_cons]
    have : ((g loan).book_id == m && (g loan).holdsCopy)
        = (loan.book_id == m && loan.holdsCopy) := hq m
    rw [this]
  refine ⟨?_, ?_, ?_, ?_, ?_, ?_, ?_⟩ <;> dsimp only
  · exact h.avail_nonneg
  · intro b hb
    rw [hheld]
    exact h.avail_held b hb
  · exact h.book_id_lt
  · intro l hl
    rw [hlupd] at hl
    rcases List.mem_append.mp hl with hl | hl
    · exact h.loan_id_lt l (by rw [hls]; exact List.mem_append_left _ hl)
    · rcases List.mem_cons.mp hl with rfl | hl
      · rw [hgid]; exact h.loan_id_lt loan hlmem
      · exact h.loan_id_lt l
          (by rw [hls]; exact List.mem_append_right _ (List.mem_cons_of_mem _ hl))
  · intro l hl
    rw [hlupd] at hl
    rcases List.mem_append.mp hl with hl | hl
    · exact h.loan_book_lt l (by rw [hls]; exact List.mem_append_left _ hl)
    · rcases List.mem_cons.mp hl with rfl | hl
      · rw [hgbid]; exact h.loan_book_lt loan hlmem
      · exact h.loan_book_lt l
          (by rw [hls]; exact List.mem_append_right _ (List.mem_cons_of_mem _ hl))
  · exact h.book_nodup
  · rw [hlupd, List.map_append, List.map_cons, hgid]
    have : (List.map Loan.id (m1 ++ loan :: m2)).Nodup := by
      rw [← hls]; exact h.loan_nodup
    rwa [List.map_append, List.map_cons] at this

/-- Mapping every loan through a function that keeps id, book and
copy-holding status (the sweep and the settings recalculation). -/
theorem DBInv.map_loans {db : DB} (h : DBInv db) {g : Loan → Loan}
    (hg : ∀ l, (g l).id = l.id ∧ (g l).book_id = l.book_id ∧
          (g l).holdsCopy = l.holdsCopy) :
    DBInv { db with loans := db.loans.map g } := by
  have hheld : ∀ m : Nat, heldFor (db.loans.map g) m = heldFor db.loans m := by
    intro m
    simp only [heldFor]
    rw [List.countP_map]
    refine List.countP_congr fun l _ => ?_
    show ((g l).book_id == m && (g l).holdsCopy) = true ↔ _
    rw [(hg l).2.1, (hg l).2.2]
  refine ⟨?_, ?_, ?_, ?_, ?_, ?_, ?_⟩ <;> dsimp only
  · exact h.avail_nonneg
  · intro b hb
    rw [hheld]
    exact h.avail_held b hb
  · exact h.book_id_lt
  · intro l hl
    obtain ⟨l0, hl0, rfl⟩ := List.mem_map.mp hl
    rw [(hg l0).1]
    exact h.loan_id_lt l0 hl0
  · intro l hl
    obtain ⟨l0, hl0, rfl⟩ := List.mem_map.mp hl
    rw [(hg l0).2.1]
    exact h.loan_book_lt l0 hl0
  · exact h.book_nodup
  · rw [List.map_map]
    have : (Loan.id ∘ g) = Loan.id := funext fun l => (hg l).1
    rw [this]
    exact h.loan_nodup

/-- The sweep changes only `status` and `fine_amount`, and keeps the loan a
copy-holder (ACTIVE/OVERDUE goes to OVERDUE). -/
theorem sweepLoan_fields (rate : ℚ) (now : Int) (l : Loan) :
    (sweepLoan rate now l).id = l.id ∧
    (sweepLoan rate now l).book_id = l.book_id ∧
    (sweepLoan rate now l).holdsCopy = l.holdsCopy ∧
    (sweepLoan rate now l).due_date = l.due_date := by
  unfold sweepLoan
  split
  · next hq =>
      have hst : l.status = LoanStatus.ACTIVE ∨ l.status = LoanStatus.OVERDUE := by
        have h1 := ((Bool.and_eq_true _ _).mp hq).1
        rcases (Bool.or_eq_true _ _).mp h1 with h | h
        · left; simpa using h
        · right; simpa using h
      have hh : l.holdsCopy = true := by
        rcases hst with h' | h' <;> simp [Loan.holdsCopy, h']
      dsimp only
      split
      · split
        · exact ⟨rfl, rfl, by rw [hh]; rfl, rfl⟩
        · split
          · exact ⟨rfl, rfl, by rw [hh]; rfl, rfl⟩
          · exact ⟨rfl, rfl, by rw [hh]; rfl, rfl⟩
      · exact ⟨rfl, rfl, by rw [hh]; rfl, rfl⟩
  · exact ⟨rfl, rfl, rfl, rfl⟩

/-- The settings recalculation likewise keeps id, book, holding status and
due date. -/
theorem recalcOverdueLoan_fields (rate : ℚ) (now : Int) (l : Loan) :
    (recalcOverdueLoan rate now l).id = l.id ∧
    (recalcOverdueLoan rate now l).book_id = l.book_id ∧
    (recalcOverdueLoan rate now l).holdsCopy = l.holdsCopy ∧
    (recalcOverdueLoan rate now l).due_date = l.due_date := by
  unfold recalcOverdueLoan
  split
  · next hq =>
      have hst : l.status = LoanStatus.ACTIVE ∨ l.status = LoanStatus.OVERDUE := by
        have h1 := ((Bool.and_eq_true _ _).mp hq).1
        rcases (Bool.or_eq_true _ _).mp h1 with h | h
        · left; simpa using h
        · right; simpa using h
      have hh : l.holdsCopy = true := by
        rcases hst with h' | h' <;> simp [Loan.holdsCopy, h']
      dsimp only
      split
      · split
        · exact ⟨rfl, rfl, by rw [hh]; rfl, rfl⟩
        · split
          · exact ⟨rfl, rfl, by rw [hh]; rfl, rfl⟩
          · exact ⟨rfl, rfl, rfl, rfl⟩
      · exact ⟨rfl, rfl, rfl, rfl⟩
  · exact ⟨rfl, rfl, rfl, rfl⟩

/-! ### Each service operation preserves the invariant -/

theorem DBInv.createBook_snd {db : DB} (h : DBInv db) {d : BookCreate}
    (hv : d.valid) : DBInv (createBook db d).2 := by
  obtain ⟨ht1, -, ha0, -⟩ := hv
  unfold createBook
  split
  · exact h
  · dsimp only
    refine h.create rfl ?_ (min_le_right _ _)
    exact le_min ha0 (by omega)

theorem DBInv.reserveBook_snd {db : DB} (h : DBInv db) (uid bid : Nat)
    (now : Int) : DBInv (reserveBook db uid bid now).2 := by
  unfold reserveBook
  split
  · exact h
  · next book hfind =>
      split
      · exact h
      · next havail =>
          split
          · exact h
          · split
            · exact h
            · split
              · exact h
              · dsimp only
                exact @DBInv.acquire (getSettings db).2 h.after_getSettings bid
                  book (by rw [getSettings_books]; exact hfind) (by omega)
                  _ rfl rfl rfl

theorem DBInv.assignLoan_snd {db : DB} (h : DBInv db) (uid bid : Nat)
    (now : Int) : DBInv (assignLoan db uid bid now).2 := by
  unfold assignLoan
  split
  · exact h
  · split
    · exact h
    · split
      · exact h
      · split
        · exact h
        · next book hfind =>
            split
            · exact h
            · next havail =>
                dsimp only
                exact @DBInv.acquire (getSettings db).2 h.after_getSettings bid
                  book (by rw [getSettings_books]; exact hfind) (by omega)
                  _ rfl rfl rfl

theorem DBInv.confirmPickup_snd {db : DB} (h : DBInv db) (lid : Nat)
    (now : Int) : DBInv (confirmPickup db lid now).2 := by
  unfold confirmPickup
  split
  · exact h
  · next loan hfind =>
      split
      · exact h
      · next hres =>
          have hst : loan.status = LoanStatus.RESERVED := not_not.mp hres
          have hholds : loan.holdsCopy = true := by simp [Loan.holdsCopy, hst]
          split
          · split
            · dsimp only
              exact h.release hfind hholds rfl rfl rfl
            · dsimp only
              exact @DBInv.update_loan (getSettings db).2 h.after_getSettings lid
                loan (by rw [getSettings_loans]; exact hfind) _ rfl rfl
                (by rw [hholds]; rfl)
          · dsimp only
            exact @DBInv.update_loan (getSettings db).2 h.after_getSettings lid
              loan (by rw [getSettings_loans]; exact hfind) _ rfl rfl
              (by rw [hholds]; rfl)

theorem DBInv.returnBook_snd {db : DB} (h : DBInv db) (lid : Nat)
    (now : Int) : DBInv (returnBook db lid now).2 := by
  unfold returnBook
  split
  · exact h
  · next loan hfind =>
      split
      · exact h
      · next hst' =>
          have hst : loan.status = LoanStatus.ACTIVE ∨
              loan.status = LoanStatus.OVERDUE := not_not.mp hst'
          have hholds : loan.holdsCopy = true := by
            rcases hst with h' | h' <;> simp [Loan.holdsCopy, h']
          dsimp only
          split
          · split
            · split
              · refine h.after_getSettings.release ?_ hholds rfl rfl rfl
                rw [getSettings_loans]; exact hfind
              · split
                · refine h.after_getSettings.release ?_ hholds rfl rfl rfl
                  rw [getSettings_loans]; exact hfind
                · refine h.after_getSettings.release ?_ hholds rfl rfl rfl
                  rw [getSettings_loans]; exact hfind
            · exact h.release hfind hholds rfl rfl rfl
          · exact h.release hfind hholds rfl rfl rfl

theorem DBInv.cancelReservation_snd {db : DB} (h : DBInv db) (uid lid : Nat)
    (now : Int) : DBInv (cancelReservation db uid lid now).2 := by
  unfold cancelReservation
  split
  · exact h
  · next loan hfind =>
      split
      · exact h
      · split
        · exact h
        · next hres =>
            have hst : loan.status = LoanStatus.RESERVED := not_not.mp hres
            have hholds : loan.holdsCopy = true := by simp [Loan.holdsCopy, hst]
            dsimp only
            exact h.release hfind hholds rfl rfl rfl

theorem DBInv.markOverdue_snd {db : DB} (h : DBInv db) (now : Int) :
    DBInv (markOverdue db now) := by
  unfold markOverdue
  split
  · dsimp only
    refine h.after_getSettings.map_loans fun l => ?_
    obtain ⟨h1, h2, h3, -⟩ := sweepLoan_fields (getSettings db).1.fineRate now l
    exact ⟨h1, h2, h3⟩
  · exact h

/-- Combined form used by `updateSettings`: overwrite the settings row and
map the loans. -/
theorem DBInv.map_loans_settings {db : DB} (h : DBInv db)
    (v : Option SystemSettings) {g : Loan → Loan}
    (hg : ∀ l, (g l).id = l.id ∧ (g l).book_id = l.book_id ∧
          (g l).holdsCopy = l.holdsCopy) :
    DBInv { db with settings := v, loans := db.loans.map g } := by
  have h1 : DBInv { db with settings := v } := h.of_eq rfl rfl rfl rfl
  exact (h1.map_loans hg).of_eq rfl rfl rfl rfl

theorem DBInv.updateSettings_snd {db : DB} (h : DBInv db) (u : SettingsUpdate)
    (now : Int) : DBInv (updateSettings db u now).2 := by
  unfold updateSettings recalculateOverdueFines
  dsimp only
  exact h.after_getSettings.map_loans_settings _ fun l => by
    obtain ⟨h1', h2', h3', -⟩ := recalcOverdueLoan_fields _ now l
    exact ⟨h1', h2', h3'⟩

theorem DBInv.addUser {db : DB} (h : DBInv db) (u : User) :
    DBInv { db with users := db.users ++ [u] } :=
  h.of_eq rfl rfl rfl rfl

/-! ### Reachability through the service operations -/

/-- The empty library (no settings row yet; `get_settings` creates one
lazily). -/
def initialDB : DB :=
  { books := [], loans := [], users := [], settings := none,
    nextBookId := 1, nextLoanId := 1 }

/-- States reachable from the empty library through book creation (with a
payload satisfying the pydantic bounds), user insertion, and the loan
lifecycle operations, sweeps and settings updates — everything except
`update_book`. -/
inductive Reaches : DB → Prop where
  | init : Reaches initialDB
  | step_create {db : DB} {d : BookCreate} :
      Reaches db → d.valid → Reaches (createBook db d).2
  | step_user {db : DB} (u : User) :
      Reaches db → Reaches { db with users := db.users ++ [u] }
  | step_reserve {db : DB} (uid bid : Nat) (now : Int) :
      Reaches db → Reaches (reserveBook db uid bid now).2
  | step_assign {db : DB} (uid bid : Nat) (now : Int) :
      Reaches db → Reaches (assignLoan db uid bid now).2
  | step_confirm {db : DB} (lid : Nat) (now : Int) :
      Reaches db → Reaches (confirmPickup db lid now).2
  | step_return {db : DB} (lid : Nat) (now : Int) :
      Reaches db → Reaches (returnBook db lid now).2
  | step_cancel {db : DB} (uid lid : Nat) (now : Int) :
      Reaches db → Reaches (cancelReservation db uid lid now).2
  | step_sweep {db : DB} (now : Int) :
      Reaches db → Reaches (markOverdue db now)
  | step_settings {db : DB} (u : SettingsUpdate) (now : Int) :
      Reaches db → Reaches (updateSettings db u now).2

theorem Reaches.dbInv {db : DB} (h : Reaches db) : DBInv db := by
  induction h with
  | init =>
      refine ⟨?_, ?_, ?_, ?_, ?_, ?_, ?_⟩ <;> simp [initialDB]
  | step_create _ hv ih => exact ih.createBook_snd hv
  | step_user u _ ih => exact ih.addUser u
  | step_reserve uid bid now _ ih => exact ih.reserveBook_snd uid bid now
  | step_assign uid bid now _ ih => exact ih.assignLoan_snd uid bid now
  | step_confirm lid now _ ih => exact ih.confirmPickup_snd lid now
  | step_return lid now _ ih => exact ih.returnBook_snd lid now
  | step_cancel uid lid now _ ih => exact ih.cancelReservation_snd uid lid now
  | step_sweep now _ ih => exact ih.markOverdue_snd now
  | step_settings u now _ ih => exact ih.updateSettings_snd u now

/-- Result-kind test for a service call (`True` when no `HTTPException` was
raised). -/
def isOk {α : Type} : Except HTTPError α → Bool
  | .ok _ => true
  | .error _ => false

/-! ### C1 -/

/-- The four-step trace refuting C1 as stated: create a book (1 copy),
reserve it, then `update_book` sets `available_copies` back to 1 (a payload
the schema accepts, and the clamp does not fire because 1 ≤ total), then
cancelling the reservation releases the held copy on top of that. -/
def c1dbA : DB :=
  (createBook initialDB
    { title := "T", author := "A", isbn := "1111111111",
      total_copies := 1, available_copies := 1 }).2

def c1User : User := { id := 7, role := UserRole.MEMBER, is_banned := false }

def c1dbB : DB := { c1dbA with users := c1dbA.users ++ [c1User] }

def c1dbC : DB := (reserveBook c1dbB 7 1 0).2

def c1dbD : DB :=
  (updateBook c1dbC 1
    { title := none, author := none, isbn := none,
      total_copies := none, available_copies := some 1 }).2

def c1dbE : DB := (cancelReservation c1dbD 7 1 3600).2

/-- The final book record of the C1 trace. -/
def c1BookE : Book :=
  { id := 1, title := "T", author := "A", isbn := "1111111111",
    total_copies := 1, available_copies := 2, is_available := true }

/-- C1 counterexample: after CreateBook, Reserve, UpdateBook
(`available_copies := 1`, within the schema bounds `0..1000`) and
CancelReservation — all four calls succeeding — the book has
`available_copies = 2 > total_copies = 1`, so the claimed inequality fails
in a state reachable by the claim's own operation list. -/
theorem c1_counterexample_updateBook_then_release :
    isOk (reserveBook c1dbB 7 1 0).1 = true ∧
    isOk (updateBook c1dbC 1
      { title := none, author := none, isbn := none,
        total_copies := none, available_copies := some 1 }).1 = true ∧
    isOk (cancelReservation c1dbD 7 1 3600).1 = true ∧
    (c1dbE.books.map fun b => (b.available_copies, b.total_copies)) = [(2, 1)] ∧
    ¬ (∀ b ∈ c1dbE.books,
        0 ≤ b.available_copies ∧ b.available_copies ≤ b.total_copies) := by
  refine ⟨rfl, rfl, rfl, rfl, ?_⟩
  intro hcl
  have := hcl c1BookE (by decide)
  exact absurd this.2 (by decide)

/-- C1 (amended): in every state reachable from the empty library via
CreateBook (validated payload), Reserve, AssignLoan, ConfirmPickup,
ReturnBook, CancelReservation, the overdue sweep and UpdateSettings —
i.e. every core operation of the claim except UpdateBook — every book
satisfies `0 ≤ available_copies ≤ total_copies`.  (UpdateBook itself leaves
the bound true right after it returns, but by raising `available_copies`
while copies are held it lets a later copy-releasing call break the upper
bound, as the counterexample shows.) -/
theorem c1_copy_bounds_lifecycle_reachable {db : DB} (h : Reaches db) :
    ∀ b ∈ db.books, 0 ≤ b.available_copies ∧
      b.available_copies ≤ b.total_copies := by
  intro b hb
  have hI := h.dbInv
  refine ⟨hI.avail_nonneg b hb, ?_⟩
  have h2 := hI.avail_held b hb
  have h3 : (0 : Int) ≤ (heldFor db.loans b.id : Int) := Int.ofNat_nonneg _
  omega

/-- The reserved-state book of the C1 trace (one copy, held). -/
def c1BookC : Book :=
  { id := 1, title := "T", author := "A", isbn := "1111111111",
    total_copies := 1, available_copies := 0, is_available := false }

theorem c1_copy_bounds_lifecycle_reachable_witness :
    0 ≤ c1BookC.available_copies ∧
      c1BookC.available_copies ≤ c1BookC.total_copies :=
  c1_copy_bounds_lifecycle_reachable
    (show Reaches c1dbC from
      Reaches.step_reserve 7 1 0
        (Reaches.step_user c1User
          (Reaches.step_create Reaches.init (by decide))))
    c1BookC (by decide)

/-! ### C2 -/

/-- C2: when a loan in ACTIVE or OVERDUE status with `now > due_date` is
returned, `return_book` computes `days_late = max(1, now.date() -
due_date.date())` and sets `fine_amount = days_late * daily_fine_amount`
(the rate the call reads through `get_settings`); in particular same-day
lateness yields `1 * rate`, not 0, and 10 days late at rate 0.75 yields
exactly 7.5. -/
theorem c2_return_fine_day_rounding (db : DB) (lid : Nat) (now : Int)
    (loan : Loan) (due : Int)
    (hfind : db.loans.find? (fun l => l.id == lid) = some loan)
    (hst : loan.status = LoanStatus.ACTIVE ∨ loan.status = LoanStatus.OVERDUE)
    (hdue : loan.due_date = some due) (hlate : due < now) :
    ∃ loan2, (returnBook db lid now).1 = .ok loan2 ∧
      loan2.status = LoanStatus.RETURNED ∧
      loan2.returned_at = some now ∧
      loan2.fine_amount = ((max 1 (dayNum now - dayNum due) : ℤ) : ℚ) * effFineRate db ∧
      (dayNum now = dayNum due → loan2.fine_amount = 1 * effFineRate db) ∧
      (dayNum now - dayNum due = 10 → effFineRate db = 3/4 →
        loan2.fine_amount = 15/2) := by
  obtain ⟨hmax, hpos⟩ := daysLate_eq_max hlate
  unfold returnBook
  rw [hfind]
  dsimp only
  rw [if_neg (not_not.mpr hst), hdue]
  dsimp only
  rw [if_pos hlate, hmax,
      if_pos (lt_of_lt_of_le zero_lt_one (le_max_left 1 (dayNum now - dayNum due)))]
  refine ⟨_, rfl, rfl, rfl, rfl, ?_, ?_⟩
  · intro hsame
    show ((max 1 (dayNum now - dayNum due) : ℤ) : ℚ) * _ = _
    rw [hsame, sub_self]
    norm_num
    rfl
  · intro h10 hrate
    show ((max 1 (dayNum now - dayNum due) : ℤ) : ℚ) * effFineRate db = 15/2
    rw [h10, hrate]
    norm_num

/-- Computing the effective rate for a stored value the coercion leaves
alone. -/
theorem fineRate_getSettings_some {db : DB} {s : SystemSettings} {q : ℚ}
    (hdb : db.settings = some s) (hq : s.daily_fine_amount = some q)
    (h0 : q ≠ 0) (h5 : q ≠ 1/2) : effFineRate db = q := by
  have hcond : ¬(some q = (none : Option ℚ) ∨ some q = some 0 ∨
      some q = some (1/2)) := by
    push_neg
    refine ⟨Option.some_ne_none _, ?_, ?_⟩
    · simpa using h0
    · simpa using h5
  unfold effFineRate getSettings
  rw [hdb]
  dsimp only
  unfold SystemSettings.fineRate normalizeSettings
  dsimp only
  rw [hq, if_neg hcond]
  rfl

/-- Computing the effective rate when the stored value is coerced. -/
theorem fineRate_getSettings_coerced {db : DB} {s : SystemSettings}
    (hdb : db.settings = some s)
    (hq : s.daily_fine_amount = none ∨ s.daily_fine_amount = some 0 ∨
          s.daily_fine_amount = some (1/2)) :
    effFineRate db = 1/10 ∧
      (getSettings db).1.daily_fine_amount = some (1/10) := by
  constructor
  · unfold effFineRate getSettings
    rw [hdb]
    dsimp only
    unfold SystemSettings.fineRate normalizeSettings
    dsimp only
    rw [if_pos hq]
    rfl
  · unfold getSettings
    rw [hdb]
    dsimp only
    unfold normalizeSettings
    dsimp only
    rw [if_pos hq]

def c2Loan : Loan :=
  { id := 1, user_id := 7, book_id := 1, status := LoanStatus.ACTIVE,
    reservation_date := 0, pickup_deadline := none, start_date := some 0,
    due_date := some 0, returned_at := none, canceled_at := none,
    fine_amount := 0 }

def c2db : DB :=
  { books := [], loans := [c2Loan], users := [],
    settings := some { pickup_window_days := some 2, standard_loan_days := some 30, daily_fine_amount := some (3/4) },
    nextBookId := 2, nextLoanId := 2 }

theorem c2_return_fine_day_rounding_witness :
    ((returnBook c2db 1 864000).1.map Loan.fine_amount = .ok (15/2 : ℚ)) ∧
    ((returnBook c2db 1 864000).1.map Loan.status = .ok LoanStatus.RETURNED) := by
  obtain ⟨l2, h1, h2, -, -, -, h5⟩ :=
    c2_return_fine_day_rounding c2db 1 864000 c2Loan 0 rfl (Or.inl rfl) rfl
      (by decide)
  rw [h1]
  simp only [Except.map]
  rw [h5 (by decide)
      (fineRate_getSettings_some rfl rfl (by norm_num) (by norm_num)), h2]
  exact ⟨rfl, rfl⟩

/-! ### C4 and C9: the fine-recalculation passes -/

theorem loanQualifies_elim {now : Int} {l : Loan}
    (h : loanQualifies now l = true) :
    (l.status = LoanStatus.ACTIVE ∨ l.status = LoanStatus.OVERDUE) ∧
      ∃ due, l.due_date = some due ∧ due < now := by
  unfold loanQualifies at h
  obtain ⟨h1, h2⟩ := (Bool.and_eq_true _ _).mp h
  refine ⟨?_, ?_⟩
  · rcases (Bool.or_eq_true _ _).mp h1 with h' | h'
    · left; simpa using h'
    · right; simpa using h'
  · cases hdue : l.due_date with
    | none => rw [hdue] at h2; cases h2
    | some d => rw [hdue] at h2; exact ⟨d, rfl, by simpa using h2⟩

theorem loanQualifies_intro {now : Int} {l : Loan} {due : Int}
    (hst : l.status = LoanStatus.ACTIVE ∨ l.status = LoanStatus.OVERDUE)
    (hdue : l.due_date = some due) (hlt : due < now) :
    loanQualifies now l = true := by
  unfold loanQualifies
  rw [hdue]
  rcases hst with h | h <;> simp [h, hlt]

/-- What `_mark_overdue` does to a qualifying loan. -/
theorem sweepLoan_eq_of_overdue {rate : ℚ} {now : Int} {l : Loan} {due : Int}
    (hst : l.status = LoanStatus.ACTIVE ∨ l.status = LoanStatus.OVERDUE)
    (hdue : l.due_date = some due) (hlt : due < now) :
    sweepLoan rate now l
      = { l with
          status := LoanStatus.OVERDUE
          fine_amount := ((max 1 (dayNum now - dayNum due) : ℤ) : ℚ) * rate } := by
  obtain ⟨hmax, hpos⟩ := daysLate_eq_max hlt
  unfold sweepLoan
  rw [if_pos (loanQualifies_intro hst hdue hlt)]
  dsimp only
  rw [hdue]
  dsimp only
  rw [hmax,
      if_pos (lt_of_lt_of_le zero_lt_one (le_max_left 1 (dayNum now - dayNum due)))]

theorem sweepLoan_eq_self {rate : ℚ} {now : Int} {l : Loan}
    (h : loanQualifies now l = false) : sweepLoan rate now l = l := by
  unfold sweepLoan
  rw [h]
  rfl

/-- What `_recalculate_overdue_fines` does to a qualifying loan (it uses the
same day-rounding rule as the sweep and as `return_book`). -/
theorem recalcOverdueLoan_eq_of_overdue {rate : ℚ} {now : Int} {l : Loan}
    {due : Int}
    (hst : l.status = LoanStatus.ACTIVE ∨ l.status = LoanStatus.OVERDUE)
    (hdue : l.due_date = some due) (hlt : due < now) :
    recalcOverdueLoan rate now l
      = { l with
          status := LoanStatus.OVERDUE
          fine_amount := ((max 1 (dayNum now - dayNum due) : ℤ) : ℚ) * rate } := by
  obtain ⟨hmax, hpos⟩ := daysLate_eq_max hlt
  unfold recalcOverdueLoan
  have hcond : ((l.status == LoanStatus.ACTIVE || l.status == LoanStatus.OVERDUE) &&
      (match l.due_date with
       | some d => decide (d < now)
       | none => false)) = true := by
    rw [hdue]
    rcases hst with h | h <;> simp [h, hlt]
  rw [if_pos hcond, hdue]
  dsimp only
  rw [hmax,
      if_pos (lt_of_lt_of_le zero_lt_one (le_max_left 1 (dayNum now - dayNum due)))]

/-- C4: `update_settings` immediately reruns the fine computation, with the
new rate and the `max(1, day difference)` rule, over every ACTIVE/OVERDUE
loan whose due date has passed, setting those loans to OVERDUE — no Return
call involved. -/
theorem c4_update_settings_reprices_overdue (db : DB) (u : SettingsUpdate)
    (now : Int) :
    ((updateSettings db u now).2).loans
      = db.loans.map (recalcOverdueLoan u.daily_fine_amount now) ∧
    (updateSettings db u now).1.daily_fine_amount = some u.daily_fine_amount ∧
    ∀ l ∈ db.loans,
      (l.status = LoanStatus.ACTIVE ∨ l.status = LoanStatus.OVERDUE) →
      ∀ due, l.due_date = some due → due < now →
        (recalcOverdueLoan u.daily_fine_amount now l).status
            = LoanStatus.OVERDUE ∧
        (recalcOverdueLoan u.daily_fine_amount now l).fine_amount
            = ((max 1 (dayNum now - dayNum due) : ℤ) : ℚ) * u.daily_fine_amount ∧
        recalcOverdueLoan u.daily_fine_amount now l
            ∈ ((updateSettings db u now).2).loans := by
  have hloans : ((updateSettings db u now).2).loans
      = db.loans.map (recalcOverdueLoan u.daily_fine_amount now) := by
    unfold updateSettings recalculateOverdueFines
    dsimp only [SystemSettings.fineRate]
    rw [getSettings_loans]
    rfl
  refine ⟨hloans, rfl, ?_⟩
  intro l hl hst due hdue hlt
  rw [recalcOverdueLoan_eq_of_overdue hst hdue hlt]
  refine ⟨rfl, rfl, ?_⟩
  rw [← recalcOverdueLoan_eq_of_overdue hst hdue hlt, hloans]
  exact List.mem_map_of_mem _ hl

def c4Loan : Loan :=
  { id := 1, user_id := 7, book_id := 1, status := LoanStatus.ACTIVE,
    reservation_date := 0, pickup_deadline := none, start_date := some 0,
    due_date := some 0, returned_at := none, canceled_at := none,
    fine_amount := 0 }

def c4db : DB :=
  { books := [], loans := [c4Loan], users := [],
    settings := some { pickup_window_days := some 2, standard_loan_days := some 30, daily_fine_amount := some (3/4) },
    nextBookId := 2, nextLoanId := 2 }

def c4Update : SettingsUpdate :=
  { pickup_window_days := 2, standard_loan_days := 30, daily_fine_amount := 2 }

theorem c4_update_settings_reprices_overdue_witness :
    (recalcOverdueLoan c4Update.daily_fine_amount 864000 c4Loan).status
        = LoanStatus.OVERDUE ∧
    (recalcOverdueLoan c4Update.daily_fine_amount 864000 c4Loan).fine_amount
        = ((max 1 (dayNum 864000 - dayNum 0) : ℤ) : ℚ) * c4Update.daily_fine_amount ∧
    recalcOverdueLoan c4Update.daily_fine_amount 864000 c4Loan
        ∈ ((updateSettings c4db c4Update 864000).2).loans :=
  (c4_update_settings_reprices_overdue c4db c4Update 864000).2.2 c4Loan
    (by decide) (Or.inl rfl) 0 rfl (by decide)

/-! ### C9: the sweep -/

theorem loanQualifies_sweepLoan (rate : ℚ) (now : Int) (l : Loan) :
    loanQualifies now (sweepLoan rate now l) = loanQualifies now l := by
  by_cases hq : loanQualifies now l = true
  · obtain ⟨hst, due, hdue, hlt⟩ := loanQualifies_elim hq
    rw [sweepLoan_eq_of_overdue hst hdue hlt, hq]
    exact loanQualifies_intro (Or.inr rfl) (by simpa using hdue) hlt
  · have hq' : loanQualifies now l = false := by simpa using hq
    rw [sweepLoan_eq_self hq']

theorem sweepLoan_idem (rate : ℚ) (now : Int) (l : Loan) :
    sweepLoan rate now (sweepLoan rate now l) = sweepLoan rate now l := by
  by_cases hq : loanQualifies now l = true
  · obtain ⟨hst, due, hdue, hlt⟩ := loanQualifies_elim hq
    rw [sweepLoan_eq_of_overdue hst hdue hlt]
    rw [sweepLoan_eq_of_overdue (Or.inr rfl) (by simpa using hdue) hlt]
  · have hq' : loanQualifies now l = false := by simpa using hq
    rw [sweepLoan_eq_self hq', sweepLoan_eq_self hq']

theorem DB.set_settings_self {db : DB} {s : SystemSettings}
    (h : db.settings = some s) : { db with settings := some s } = db := by
  cases db
  simp only at h
  rw [← h]

theorem normalize_getSettings_fst (db : DB) :
    normalizeSettings (getSettings db).1 = (getSettings db).1 := by
  cases h : db.settings with
  | none => simp [getSettings, h, normalizeSettings_default]
  | some s => simp [getSettings, h, normalizeSettings_idem]

theorem getSettings_of_normalized {db : DB} {s : SystemSettings}
    (h : db.settings = some s) (hn : normalizeSettings s = s) :
    getSettings db = (s, db) := by
  unfold getSettings
  rw [h]
  dsimp only
  rw [hn, DB.set_settings_self h]

theorem markOverdue_eq_pos {db : DB} {now : Int}
    (hany : db.loans.any (loanQualifies now) = true) :
    markOverdue db now = { (getSettings db).2 with
      loans := db.loans.map (sweepLoan (effFineRate db) now) } := by
  unfold markOverdue
  rw [if_pos hany]
  dsimp only
  rw [getSettings_loans]
  rfl

theorem markOverdue_eq_neg {db : DB} {now : Int}
    (hany : db.loans.any (loanQualifies now) = false) :
    markOverdue db now = db := by
  unfold markOverdue
  simp [hany]

/-- C9: the overdue sweep is idempotent at a fixed current time, and acts
pointwise as: qualifying loans (ACTIVE/OVERDUE with a passed due date) go to
OVERDUE with the fine recomputed by the `max(1, day difference) * rate`
rule; all other loans are untouched. -/
theorem c9_sweep_idempotent (db : DB) (now : Int) :
    markOverdue (markOverdue db now) now = markOverdue db now ∧
    ((markOverdue db now).loans = if db.loans.any (loanQualifies now) then
        db.loans.map (sweepLoan (effFineRate db) now) else db.loans) ∧
    (∀ l, loanQualifies now l = false → sweepLoan (effFineRate db) now l = l) ∧
    (∀ l due, (l.status = LoanStatus.ACTIVE ∨ l.status = LoanStatus.OVERDUE) →
      l.due_date = some due → due < now →
      sweepLoan (effFineRate db) now l
        = { l with
            status := LoanStatus.OVERDUE
            fine_amount := ((max 1 (dayNum now - dayNum due) : ℤ) : ℚ)
              * effFineRate db }) := by
  refine ⟨?_, ?_, fun l h => sweepLoan_eq_self h,
    fun l due hst hdue hlt => sweepLoan_eq_of_overdue hst hdue hlt⟩
  · by_cases hany : db.loans.any (loanQualifies now) = true
    · have hR := markOverdue_eq_pos hany
      have hRs : (markOverdue db now).settings = some (getSettings db).1 := by
        rw [hR, getSettings_snd db]
      have hgR : getSettings (markOverdue db now)
          = ((getSettings db).1, markOverdue db now) :=
        getSettings_of_normalized hRs (normalize_getSettings_fst db)
      have hcomp : loanQualifies now ∘ sweepLoan (effFineRate db) now
          = loanQualifies now :=
        funext (loanQualifies_sweepLoan (effFineRate db) now)
      have hanyR : (markOverdue db now).loans.any (loanQualifies now) = true := by
        rw [hR]
        show (db.loans.map (sweepLoan (effFineRate db) now)).any _ = true
        rw [List.any_map, hcomp]
        exact hany
      rw [markOverdue_eq_pos hanyR]
      have heff : effFineRate (markOverdue db now) = effFineRate db := by
        unfold effFineRate
        rw [hgR]
      rw [heff]
      have hsnd : (getSettings (markOverdue db now)).2 = markOverdue db now := by
        rw [hgR]
      rw [hsnd]
      have hloans : (markOverdue db now).loans.map (sweepLoan (effFineRate db) now)
          = (markOverdue db now).loans := by
        rw [hR]
        show (db.loans.map _).map _ = _
        rw [List.map_map]
        congr 1
        exact funext (sweepLoan_idem (effFineRate db) now)
      rw [hloans]
    · have hany' : db.loans.any (loanQualifies now) = false := by simpa using hany
      rw [markOverdue_eq_neg hany', markOverdue_eq_neg hany']
  · by_cases hany : db.loans.any (loanQualifies now) = true
    · rw [if_pos hany, markOverdue_eq_pos hany]
    · have hany' : db.loans.any (loanQualifies now) = false := by simpa using hany
      rw [markOverdue_eq_neg hany', if_neg (by simpa using hany)]

/-- A loan the sweep must leave alone (already returned). -/
def c9LoanFresh : Loan :=
  { id := 2, user_id := 7, book_id := 1, status := LoanStatus.RETURNED,
    reservation_date := 0, pickup_deadline := none, start_date := some 0,
    due_date := some 0, returned_at := some 10, canceled_at := none,
    fine_amount := 0 }

theorem c9_sweep_idempotent_witness :
    sweepLoan (effFineRate c4db) 864000 c9LoanFresh = c9LoanFresh ∧
    sweepLoan (effFineRate c4db) 864000 c4Loan
      = { c4Loan with
          status := LoanStatus.OVERDUE
          fine_amount := ((max 1 (dayNum 864000 - dayNum 0) : ℤ) : ℚ)
            * effFineRate c4db } :=
  ⟨(c9_sweep_idempotent c4db 864000).2.2.1 c9LoanFresh (by decide),
   (c9_sweep_idempotent c4db 864000).2.2.2 c4Loan 0 (Or.inl rfl) rfl (by decide)⟩

/-! ### Success characterisations of `reserve_book` and `confirm_pickup` -/

/-- Inversion of a successful `reserve_book` call. -/
theorem reserveBook_ok {db : DB} {uid bid : Nat} {now : Int} {loan : Loan}
    {db' : DB} (h : reserveBook db uid bid now = (.ok loan, db')) :
    loan = { id := db.nextLoanId, user_id := uid, book_id := bid,
             status := LoanStatus.RESERVED, reservation_date := now,
             pickup_deadline := some (now + effPickupDays db * secPerDay),
             start_date := none, due_date := none, returned_at := none,
             canceled_at := none, fine_amount := 0 } ∧
    db' = { db with
            settings := some (getSettings db).1
            books := updateById Book.id bid (bumpAvail (-1)) db.books
            loans := db.loans ++ [loan]
            nextLoanId := db.nextLoanId + 1 } := by
  unfold reserveBook at h
  split at h
  · simp at h
  · split at h
    · simp at h
    · split at h
      · simp at h
      · split at h
        · simp at h
        · split at h
          · simp at h
          · dsimp only at h
            rw [Prod.mk.injEq] at h
            obtain ⟨h1, h2⟩ := h
            injection h1 with h1
            subst h1
            subst h2
            constructor
            · rw [getSettings_snd db]; rfl
            · rw [getSettings_snd db]

/-- Inversion of a successful `confirm_pickup` call. -/
theorem confirmPickup_ok {db : DB} {lid : Nat} {now : Int} {loan' : Loan}
    {db' : DB} (h : confirmPickup db lid now = (.ok loan', db')) :
    ∃ loan, db.loans.find? (fun l => l.id == lid) = some loan ∧
      loan.status = LoanStatus.RESERVED ∧
      loan' = { loan with
                status := LoanStatus.ACTIVE
                start_date := some now
                due_date := some (now + effLoanDays db * secPerDay) } ∧
      db' = { db with
              settings := some (getSettings db).1
              loans := updateById Loan.id lid (fun _ => loan') db.loans } ∧
      (∀ dl, loan.pickup_deadline = some dl → ¬ now > dl) := by
  unfold confirmPickup at h
  split at h
  · simp at h
  · next loan hfind =>
      split at h
      · simp at h
      · next hres =>
          split at h
          · next dl hdl =>
              split at h
              · simp at h
              · next hnl =>
                  dsimp only at h
                  rw [Prod.mk.injEq] at h
                  obtain ⟨h1, h2⟩ := h
                  injection h1 with h1
                  subst h1
                  subst h2
                  refine ⟨loan, hfind, not_not.mp hres, ?_, ?_, ?_⟩
                  · rfl
                  · rw [getSettings_snd db]
                  · intro dl' hdl'
                    rw [hdl] at hdl'
                    injection hdl' with hdl'
                    subst hdl'
                    exact hnl
          · next hdl =>
              dsimp only at h
              rw [Prod.mk.injEq] at h
              obtain ⟨h1, h2⟩ := h
              injection h1 with h1
              subst h1
              subst h2
              refine ⟨loan, hfind, not_not.mp hres, ?_, ?_, ?_⟩
              · rfl
              · rw [getSettings_snd db]
              · intro dl' hdl'
                rw [hdl] at hdl'
                cases hdl'

/-- Taking a copy (`available_copies -= 1`) and later releasing it
(`available_copies += 1`) restores the count the book had before. -/
theorem find?_avail_restore (bid : Nat) (books : List Book) :
    ((updateById Book.id bid (bumpAvail 1)
        (updateById Book.id bid (bumpAvail (-1)) books)).find?
      (fun b => b.id == bid)).map Book.available_copies
    = (books.find? (fun b => b.id == bid)).map Book.available_copies := by
  rw [find?_updateById Book.id bid bid (bumpAvail 1) (fun b => rfl),
      find?_updateById Book.id bid bid (bumpAvail (-1)) (fun b => rfl)]
  cases hb : books.find? (fun b => b.id == bid) with
  | none => rfl
  | some b =>
      have hbt : (b.id == bid) = true := by
        have h' := List.find?_some hb
        simpa using h'
      simp only [Option.map_map, Option.map, Function.comp]
      rw [if_pos hbt]
      have : ((bumpAvail (-1) b).id == bid) = true := hbt
      rw [if_pos this]
      show some ((b.available_copies + -1) + 1) = some b.available_copies
      congr 1
      omega

/-! ### C3 -/

/-- C3: after a successful Reserve, a ConfirmPickup past the pickup deadline
reports the failure (`400 "Reservation has expired"`) *and*, in the same
call, commits the compensating mutation: the loan moves to EXPIRED and the
held copy is released, so the book's `available_copies` is back at its
pre-reservation baseline. -/
theorem c3_confirm_after_deadline_expires (db : DB) (uid bid : Nat)
    (now0 now1 : Int) (loan : Loan) (db1 : DB)
    (hfresh : ∀ l ∈ db.loans, l.id ≠ db.nextLoanId)
    (hres : reserveBook db uid bid now0 = (.ok loan, db1))
    (hlate : ∀ dl, loan.pickup_deadline = some dl → now1 > dl) :
    ∃ db2, confirmPickup db1 loan.id now1
        = (.error { status_code := 400, detail := "Reservation has expired" }, db2) ∧
      (db2.loans.find? (fun l => l.id == loan.id)).map Loan.status
        = some LoanStatus.EXPIRED ∧
      (db2.books.find? (fun b => b.id == bid)).map Book.available_copies
        = (db.books.find? (fun b => b.id == bid)).map Book.available_copies := by
  obtain ⟨hloan, hdb1⟩ := reserveBook_ok hres
  have hdl : loan.pickup_deadline = some (now0 + effPickupDays db * secPerDay) := by
    rw [hloan]
  have hlate' : now1 > now0 + effPickupDays db * secPerDay := hlate _ hdl
  have hst : ¬loan.status ≠ LoanStatus.RESERVED := by rw [hloan]; simp
  have hnone : db.loans.find? (fun l => l.id == loan.id) = none := by
    refine List.find?_eq_none.mpr fun l hl => ?_
    have : loan.id = db.nextLoanId := by rw [hloan]
    rw [this]
    simpa using hfresh l hl
  have hfind1 : db1.loans.find? (fun l => l.id == loan.id) = some loan := by
    rw [hdb1]
    show (db.loans ++ [loan]).find? (fun l => l.id == loan.id) = some loan
    rw [List.find?_append, hnone]
    simp [List.find?_cons]
  unfold confirmPickup
  rw [hfind1]
  dsimp only
  rw [if_neg hst, hdl]
  dsimp only
  rw [if_pos hlate']
  refine ⟨_, rfl, ?_, ?_⟩
  · show ((updateById Loan.id loan.id
        (fun l => { l with status := LoanStatus.EXPIRED }) db1.loans).find?
          (fun l => l.id == loan.id)).map Loan.status = some LoanStatus.EXPIRED
    rw [find?_self_updateById Loan.id loan.id
        (fun l => { l with status := LoanStatus.EXPIRED }) (fun x hx => hx),
        hfind1]
    rfl
  · show ((updateById Book.id loan.book_id (bumpAvail 1) db1.books).find?
        (fun b => b.id == bid)).map Book.available_copies
      = (db.books.find? (fun b => b.id == bid)).map Book.available_copies
    have hbid : loan.book_id = bid := by rw [hloan]
    have hbooks : db1.books = updateById Book.id bid (bumpAvail (-1)) db.books := by
      rw [hdb1]
    rw [hbid, hbooks]
    exact find?_avail_restore bid db.books

/-- The loan produced by `reserveBook c1dbB 7 1 0`. -/
def c1LoanR : Loan :=
  { id := 1, user_id := 7, book_id := 1, status := LoanStatus.RESERVED,
    reservation_date := 0, pickup_deadline := some 172800, start_date := none,
    due_date := none, returned_at := none, canceled_at := none,
    fine_amount := 0 }

theorem c3_confirm_after_deadline_expires_witness :
    (confirmPickup c1dbC c1LoanR.id 200000).1
      = .error { status_code := 400, detail := "Reservation has expired" } ∧
    (((confirmPickup c1dbC c1LoanR.id 200000).2).loans.find?
      (fun l => l.id == c1LoanR.id)).map Loan.status = some LoanStatus.EXPIRED ∧
    (((confirmPickup c1dbC c1LoanR.id 200000).2).books.find?
      (fun b => b.id == 1)).map Book.available_copies
      = (c1dbB.books.find? (fun b => b.id == 1)).map Book.available_copies := by
  obtain ⟨db2, h1, h2, h3⟩ :=
    c3_confirm_after_deadline_expires c1dbB 7 1 0 200000 c1LoanR c1dbC
      (by decide) rfl
      (fun dl h => by injection h with h; subst h; decide)
  rw [h1]
  exact ⟨rfl, h2, h3⟩

/-! ### Forward computations of the lifecycle operations -/

/-- Forward computation of a timely `confirm_pickup`. -/
theorem confirmPickup_eq {db : DB} {lid : Nat} {loan : Loan} (now : Int)
    (hfind : db.loans.find? (fun l => l.id == lid) = some loan)
    (hst : loan.status = LoanStatus.RESERVED)
    (hok : ∀ dl, loan.pickup_deadline = some dl → ¬ now > dl) :
    confirmPickup db lid now
      = (.ok { loan with
               status := LoanStatus.ACTIVE
               start_date := some now
               due_date := some (now + effLoanDays db * secPerDay) },
         { db with
           settings := some (getSettings db).1
           loans := updateById Loan.id lid
             (fun _ => { loan with
                         status := LoanStatus.ACTIVE
                         start_date := some now
                         due_date := some (now + effLoanDays db * secPerDay) })
             db.loans }) := by
  unfold confirmPickup
  rw [hfind]
  dsimp only
  rw [if_neg (not_not.mpr hst)]
  cases hdl : loan.pickup_deadline with
  | some dl =>
      dsimp only
      rw [if_neg (hok dl hdl)]
      rw [getSettings_snd db]
      rfl
  | none =>
      dsimp only
      rw [getSettings_snd db]
      rfl

/-- Forward computation of an on-time `return_book`. -/
theorem returnBook_eq_ontime {db : DB} {lid : Nat} {loan : Loan} (now : Int)
    (hfind : db.loans.find? (fun l => l.id == lid) = some loan)
    (hst : loan.status = LoanStatus.ACTIVE ∨ loan.status = LoanStatus.OVERDUE)
    (hok : ∀ due, loan.due_date = some due → ¬ now > due) :
    returnBook db lid now
      = (.ok { loan with
               status := LoanStatus.RETURNED
               returned_at := some now },
         { db with
           loans := updateById Loan.id lid
             (fun _ => { loan with
                         status := LoanStatus.RETURNED
                         returned_at := some now }) db.loans
           books := updateById Book.id loan.book_id (bumpAvail 1) db.books }) := by
  unfold returnBook
  rw [hfind]
  dsimp only
  rw [if_neg (not_not.mpr hst)]
  cases hdue : loan.due_date with
  | some due =>
      dsimp only
      rw [if_neg (hok due hdue), ← hdue]
  | none =>
      dsimp only
      rw [← hdue]

/-- Forward computation of `cancel_reservation` by the owner on a RESERVED
loan. -/
theorem cancelReservation_eq {db : DB} {uid lid : Nat} {loan : Loan}
    (now : Int)
    (hfind : db.loans.find? (fun l => l.id == lid) = some loan)
    (howner : loan.user_id = uid)
    (hst : loan.status = LoanStatus.RESERVED) :
    cancelReservation db uid lid now
      = (.ok { loan with
               status := LoanStatus.CANCELLED
               canceled_at := some now },
         { db with
           loans := updateById Loan.id lid
             (fun _ => { loan with
                         status := LoanStatus.CANCELLED
                         canceled_at := some now }) db.loans
           books := updateById Book.id loan.book_id (bumpAvail 1) db.books }) := by
  unfold cancelReservation
  rw [hfind]
  dsimp only
  rw [if_neg (not_not.mpr howner), if_neg (not_not.mpr hst)]

/-- Forward computation of a successful `reserve_book`. -/
theorem reserveBook_eq_ok {db : DB} {uid bid : Nat} {book : Book}
    {user : User} (now : Int)
    (hbook : db.books.find? (fun b => b.id == bid) = some book)
    (havail : ¬ book.available_copies ≤ 0)
    (huser : db.users.find? (fun u => u.id == uid) = some user)
    (hban : user.is_banned = false)
    (hrc : db.loans.find? (recentCancelFilter uid bid now) = none) :
    reserveBook db uid bid now
      = (.ok { id := db.nextLoanId, user_id := uid, book_id := bid,
               status := LoanStatus.RESERVED, reservation_date := now,
               pickup_deadline := some (now + effPickupDays db * secPerDay),
               start_date := none, due_date := none, returned_at := none,
               canceled_at := none, fine_amount := 0 },
         { db with
           settings := some (getSettings db).1
           books := updateById Book.id bid (bumpAvail (-1)) db.books
           loans := db.loans ++
             [{ id := db.nextLoanId, user_id := uid, book_id := bid,
                status := LoanStatus.RESERVED, reservation_date := now,
                pickup_deadline := some (now + effPickupDays db * secPerDay),
                start_date := none, due_date := none, returned_at := none,
                canceled_at := none, fine_amount := 0 }]
           nextLoanId := db.nextLoanId + 1 }) := by
  unfold reserveBook
  rw [hbook]
  dsimp only
  rw [if_neg havail, huser]
  dsimp only
  rw [if_neg (by rw [hban]; exact Bool.false_ne_true), if_neg (by rw [hrc]; simp)]
  rw [getSettings_snd db]
  rfl

/-! ### C5 -/

/-- C5: Reserve, then ConfirmPickup on or before the pickup deadline, then
ReturnBook on or before the due date: both follow-up calls succeed, the
final loan has `fine_amount = 0`, status RETURNED with `returned_at` set,
and the book's `available_copies` is restored to its pre-reservation
value. -/
theorem c5_happy_path_round_trip (db : DB) (uid bid : Nat)
    (now0 now1 now2 : Int) (loan : Loan) (db1 : DB)
    (hfresh : ∀ l ∈ db.loans, l.id ≠ db.nextLoanId)
    (hres : reserveBook db uid bid now0 = (.ok loan, db1))
    (hnl1 : ¬ now1 > now0 + effPickupDays db * secPerDay)
    (hnl2 : ¬ now2 > now1 + effLoanDays db1 * secPerDay) :
    ∃ loan1 loan2 db2 db3,
      confirmPickup db1 loan.id now1 = (.ok loan1, db2) ∧
      returnBook db2 loan.id now2 = (.ok loan2, db3) ∧
      loan2.fine_amount = 0 ∧ loan2.status = LoanStatus.RETURNED ∧
      loan2.returned_at = some now2 ∧
      (db3.books.find? (fun b => b.id == bid)).map Book.available_copies
        = (db.books.find? (fun b => b.id == bid)).map Book.available_copies := by
  obtain ⟨hloan, hdb1⟩ := reserveBook_ok hres
  have hdl : loan.pickup_deadline = some (now0 + effPickupDays db * secPerDay) := by
    rw [hloan]
  have hst : loan.status = LoanStatus.RESERVED := by rw [hloan]
  have hfine : loan.fine_amount = 0 := by rw [hloan]
  have hbid : loan.book_id = bid := by rw [hloan]
  have hnone : db.loans.find? (fun l => l.id == loan.id) = none := by
    refine List.find?_eq_none.mpr fun l hl => ?_
    have hid : loan.id = db.nextLoanId := by rw [hloan]
    rw [hid]
    simpa using hfresh l hl
  have hfind1 : db1.loans.find? (fun l => l.id == loan.id) = some loan := by
    rw [hdb1]
    show (db.loans ++ [loan]).find? (fun l => l.id == loan.id) = some loan
    rw [List.find?_append, hnone]
    simp [List.find?_cons]
  have hconf := confirmPickup_eq now1 hfind1 hst
    (fun dl h => by rw [hdl] at h; injection h with h; rw [h] at hnl1; exact hnl1)
  have hfind2 : ((confirmPickup db1 loan.id now1).2).loans.find?
      (fun l => l.id == loan.id)
      = some { loan with
               status := LoanStatus.ACTIVE
               start_date := some now1
               due_date := some (now1 + effLoanDays db1 * secPerDay) } := by
    rw [hconf]
    show (updateById Loan.id loan.id _ db1.loans).find? _ = _
    rw [find?_self_updateById Loan.id loan.id
        (fun _ => { loan with
                    status := LoanStatus.ACTIVE
                    start_date := some now1
                    due_date := some (now1 + effLoanDays db1 * secPerDay) })
        (fun x hx => rfl), hfind1]
    rfl
  have hret := returnBook_eq_ontime now2 hfind2 (Or.inl rfl)
    (fun due h => by
      injection h with h
      rw [h] at hnl2
      exact hnl2)
  rw [hconf] at hret
  have hbooks : db1.books = updateById Book.id bid (bumpAvail (-1)) db.books := by
    rw [hdb1]
  exact ⟨_, _, _, _, hconf, hret, hfine, rfl, rfl, by
    show ((updateById Book.id loan.book_id (bumpAvail 1) db1.books).find?
        (fun b => b.id == bid)).map Book.available_copies = _
    rw [hbid, hbooks]
    exact find?_avail_restore bid db.books⟩

theorem c5_happy_path_round_trip_witness :
    isOk (confirmPickup c1dbC c1LoanR.id 1000).1 = true ∧
    ((returnBook (confirmPickup c1dbC c1LoanR.id 1000).2 c1LoanR.id 2000000).1).map
      (fun l => (l.fine_amount, l.status, l.returned_at))
      = .ok ((0 : ℚ), LoanStatus.RETURNED, some (2000000 : Int)) ∧
    (((returnBook (confirmPickup c1dbC c1LoanR.id 1000).2 c1LoanR.id
        2000000).2).books.find? (fun b => b.id == 1)).map Book.available_copies
      = (c1dbB.books.find? (fun b => b.id == 1)).map Book.available_copies := by
  obtain ⟨l1, l2, db2, db3, hconf, hret, hfine, hst, hra, hbooks⟩ :=
    c5_happy_path_round_trip c1dbB 7 1 0 1000 2000000 c1LoanR c1dbC
      (by decide) rfl (by decide) (by decide)
  rw [hconf]
  dsimp only
  rw [hret]
  simp only [Except.map, isOk]
  exact ⟨trivial, by rw [hfine, hst, hra], hbooks⟩

/-! ### C6 -/

/-- Releasing a copy adds one to the released book's visible count. -/
theorem find?_avail_bump (k : Nat) (books : List Book) :
    ((updateById Book.id k (bumpAvail 1) books).find?
      (fun b => b.id == k)).map Book.available_copies
    = (books.find? (fun b => b.id == k)).map
        (fun b => b.available_copies + 1) := by
  rw [find?_updateById Book.id k k (bumpAvail 1) (fun b => rfl)]
  cases hb : books.find? (fun b => b.id == k) with
  | none => rfl
  | some b =>
      have hbt : (b.id == k) = true := by
        have h' := List.find?_some hb
        simpa using h'
      simp only [Option.map_map, Option.map, Function.comp]
      rw [if_pos hbt]
      rfl

/-- C6: cancelling a RESERVED loan one owns sets status CANCELLED with
`canceled_at = now` and releases the copy (`available_copies + 1`);
re-reserving the same (user, book) fails with the 24-hour error while a
CANCELLED reservation of that pair has `canceled_at` within the last 24
hours, and succeeds (other guards holding) when every such cancellation is
older than 24 hours. -/
theorem c6_cancel_and_cooldown :
    (∀ (db : DB) (uid lid : Nat) (now : Int) (loan : Loan),
      db.loans.find? (fun l => l.id == lid) = some loan →
      loan.user_id = uid → loan.status = LoanStatus.RESERVED →
      (cancelReservation db uid lid now).1
          = .ok { loan with
                  status := LoanStatus.CANCELLED
                  canceled_at := some now } ∧
      (((cancelReservation db uid lid now).2).books.find?
          (fun b => b.id == loan.book_id)).map Book.available_copies
        = (db.books.find? (fun b => b.id == loan.book_id)).map
            (fun b => b.available_copies + 1)) ∧
    (∀ (db : DB) (uid bid : Nat) (now : Int) (book : Book) (user : User)
        (cl : Loan) (c : Int),
      db.books.find? (fun b => b.id == bid) = some book →
      ¬ book.available_copies ≤ 0 →
      db.users.find? (fun u => u.id == uid) = some user →
      user.is_banned = false →
      cl ∈ db.loans → cl.user_id = uid → cl.book_id = bid →
      cl.status = LoanStatus.CANCELLED → cl.canceled_at = some c →
      c > now - secPerDay →
      (reserveBook db uid bid now).1
        = .error (HTTPError.mk 400
            "You must wait 24 hours before reserving this book again")) ∧
    (∀ (db : DB) (uid bid : Nat) (now : Int) (book : Book) (user : User),
      db.books.find? (fun b => b.id == bid) = some book →
      ¬ book.available_copies ≤ 0 →
      db.users.find? (fun u => u.id == uid) = some user →
      user.is_banned = false →
      (∀ l ∈ db.loans, l.user_id = uid → l.book_id = bid →
        l.status = LoanStatus.CANCELLED → ∀ c, l.canceled_at = some c →
          c < now - secPerDay) →
      ∃ loan db', reserveBook db uid bid now = (.ok loan, db') ∧
        loan.status = LoanStatus.RESERVED) := by
  refine ⟨?_, ?_, ?_⟩
  · intro db uid lid now loan hfind howner hst
    rw [cancelReservation_eq now hfind howner hst]
    exact ⟨rfl, find?_avail_bump loan.book_id db.books⟩
  · intro db uid bid now book user cl c hbook havail huser hban hclmem hcluid
      hclbid hclst hclca hc
    have hfilter : recentCancelFilter uid bid now cl = true := by
      unfold recentCancelFilter
      rw [hclca]
      simp [hcluid, hclbid, hclst, hc]
    have hsome : (db.loans.find? (recentCancelFilter uid bid now)).isSome = true :=
      List.find?_isSome.mpr ⟨cl, hclmem, hfilter⟩
    unfold reserveBook
    rw [hbook]
    dsimp only
    rw [if_neg havail, huser]
    dsimp only
    rw [if_neg (by rw [hban]; exact Bool.false_ne_true), if_pos hsome]
  · intro db uid bid now book user hbook havail huser hban hold
    have hrc : db.loans.find? (recentCancelFilter uid bid now) = none := by
      refine List.find?_eq_none.mpr fun l hl => ?_
      intro hfl
      unfold recentCancelFilter at hfl
      obtain ⟨h123, hmatch⟩ := (Bool.and_eq_true _ _).mp hfl
      obtain ⟨h12, hstc⟩ := (Bool.and_eq_true _ _).mp h123
      obtain ⟨hu, hb⟩ := (Bool.and_eq_true _ _).mp h12
      have hu' : l.user_id = uid := by simpa using hu
      have hb' : l.book_id = bid := by simpa using hb
      have hstc' : l.status = LoanStatus.CANCELLED := by simpa using hstc
      cases hca : l.canceled_at with
      | none => rw [hca] at hmatch; cases hmatch
      | some c =>
          rw [hca] at hmatch
          have hc' : c > now - secPerDay := by simpa using hmatch
          have := hold l hl hu' hb' hstc' c hca
          omega
    exact ⟨_, _, reserveBook_eq_ok now hbook havail huser hban hrc, rfl⟩

def c6Book : Book :=
  { id := 1, title := "T", author := "A", isbn := "1111111111",
    total_copies := 2, available_copies := 1, is_available := true }

def c6ClRecent : Loan :=
  { id := 1, user_id := 7, book_id := 1, status := LoanStatus.CANCELLED,
    reservation_date := 0, pickup_deadline := some 172800, start_date := none,
    due_date := none, returned_at := none, canceled_at := some 150000,
    fine_amount := 0 }

def c6dbB : DB :=
  { books := [c6Book], loans := [c6ClRecent], users := [c1User],
    settings := none, nextBookId := 2, nextLoanId := 2 }

def c6ClOld : Loan := { c6ClRecent with canceled_at := some 0 }

def c6dbC : DB := { c6dbB with loans := [c6ClOld] }

theorem c6_cancel_and_cooldown_witness :
    (cancelReservation c1dbC 7 1 100).1
        = .ok { c1LoanR with
                status := LoanStatus.CANCELLED
                canceled_at := some 100 } ∧
    (((cancelReservation c1dbC 7 1 100).2).books.find?
        (fun b => b.id == c1LoanR.book_id)).map Book.available_copies
      = (c1dbC.books.find? (fun b => b.id == c1LoanR.book_id)).map
          (fun b => b.available_copies + 1) ∧
    (reserveBook c6dbB 7 1 200000).1
        = .error (HTTPError.mk 400
            "You must wait 24 hours before reserving this book again") ∧
    isOk (reserveBook c6dbC 7 1 200000).1 = true := by
  obtain ⟨ha, hb, hc⟩ := c6_cancel_and_cooldown
  obtain ⟨ha1, ha2⟩ := ha c1dbC 7 1 100 c1LoanR rfl rfl rfl
  refine ⟨ha1, ha2, ?_, ?_⟩
  · exact hb c6dbB 7 1 200000 c6Book c1User c6ClRecent 150000 rfl (by decide)
      rfl rfl (List.mem_cons_self _ _) rfl rfl rfl rfl (by decide)
  · obtain ⟨loan, db', heq, -⟩ := hc c6dbC 7 1 200000 c6Book c1User rfl
      (by decide) rfl rfl
      (fun l hl h1 h2 h3 c hcc => by
        rcases List.mem_singleton.mp hl with rfl
        injection hcc with hcc
        subst hcc
        decide)
    rw [heq]
    rfl

/-! ### C7: the `is_available` flag -/

/-- `bumpAvail` (the `+= δ` / `book.is_available = book.available_copies > 0`
pair of `library_service.py`) re-derives the flag from the record's new
count. -/
theorem bumpAvail_flag (δ : Int) (b : Book) :
    (bumpAvail δ b).is_available
      = decide ((bumpAvail δ b).available_copies > 0) := rfl

/-- After a `bumpAvail` table update, every row is either an untouched
original row or carries a flag re-derived from its own count. -/
theorem mem_books_bump {k : Nat} {δ : Int} {books : List Book} {b' : Book}
    (h : b' ∈ updateById Book.id k (bumpAvail δ) books) :
    b' ∈ books ∨ b'.is_available = decide (b'.available_copies > 0) := by
  obtain ⟨b, hb, hbe⟩ := mem_updateById h
  by_cases hc : b.id = k
  · right
    have hb2 : b' = bumpAvail δ b := by rw [hbe]; simp [hc]
    rw [hb2]
    rfl
  · left
    have hb2 : b' = b := by rw [hbe]; simp [hc]
    rw [hb2]
    exact hb

/-- `create_book` stores the column default `is_available = True`, whatever
the copy counts in the payload are. -/
theorem createBook_flag (db : DB) (d : BookCreate) (book : Book) (db' : DB)
    (h : createBook db d = (.ok book, db')) : book.is_available = true := by
  unfold createBook at h
  split at h
  · simp at h
  · dsimp only at h
    injection h with h1 h2
    injection h1 with h1
    rw [← h1]

/-- `update_book` copies or clamps the copy counts but never recomputes the
`is_available` flag: the flag of every row in the resulting table equals the
flag of a pre-existing row. -/
theorem updateBook_flag (db : DB) (bid : Nat) (u : BookUpdate) :
    ∀ b' ∈ ((updateBook db bid u).2).books,
      ∃ b ∈ db.books, b'.is_available = b.is_available := by
  intro b' hb'
  unfold updateBook at hb'
  split at hb'
  · exact ⟨b', hb', rfl⟩
  · dsimp only at hb'
    obtain ⟨b, hb, hbe⟩ := mem_updateById hb'
    refine ⟨b, hb, ?_⟩
    rw [hbe]
    by_cases hc : b.id = bid
    · rw [if_pos (by simpa using hc)]
      split
      · rfl
      · rfl
    · rw [if_neg (by simpa using hc)]

/-- Every book row touched by `reserve_book` gets its flag re-derived. -/
theorem reserveBook_flag (db : DB) (uid bid : Nat) (now : Int) :
    ∀ b' ∈ ((reserveBook db uid bid now).2).books,
      b' ∈ db.books ∨ b'.is_available = decide (b'.available_copies > 0) := by
  intro b' hb'
  unfold reserveBook at hb'
  split at hb'
  · exact Or.inl hb'
  · split at hb'
    · exact Or.inl hb'
    · split at hb'
      · exact Or.inl hb'
      · split at hb'
        · exact Or.inl hb'
        · split at hb'
          · exact Or.inl hb'
          · dsimp only at hb'
            rcases mem_books_bump hb' with h | h
            · rw [getSettings_books] at h
              exact Or.inl h
            · exact Or.inr h

/-- Every book row touched by `assign_loan` gets its flag re-derived. -/
theorem assignLoan_flag (db : DB) (uid bid : Nat) (now : Int) :
    ∀ b' ∈ ((assignLoan db uid bid now).2).books,
      b' ∈ db.books ∨ b'.is_available = decide (b'.available_copies > 0) := by
  intro b' hb'
  unfold assignLoan at hb'
  split at hb'
  · exact Or.inl hb'
  · split at hb'
    · exact Or.inl hb'
    · split at hb'
      · exact Or.inl hb'
      · split at hb'
        · exact Or.inl hb'
        · split at hb'
          · exact Or.inl hb'
          · dsimp only at hb'
            rcases mem_books_bump hb' with h | h
            · rw [getSettings_books] at h
              exact Or.inl h
            · exact Or.inr h

/-- Every book row touched by `confirm_pickup` gets its flag re-derived. -/
theorem confirmPickup_flag (db : DB) (lid : Nat) (now : Int) :
    ∀ b' ∈ ((confirmPickup db lid now).2).books,
      b' ∈ db.books ∨ b'.is_available = decide (b'.available_copies > 0) := by
  intro b' hb'
  unfold confirmPickup at hb'
  split at hb'
  · exact Or.inl hb'
  · split at hb'
    · exact Or.inl hb'
    · split at hb'
      · split at hb'
        · dsimp only at hb'
          rcases mem_books_bump hb' with h | h
          · exact Or.inl h
          · exact Or.inr h
        · dsimp only at hb'
          rw [getSettings_books] at hb'
          exact Or.inl hb'
      · dsimp only at hb'
        rw [getSettings_books] at hb'
        exact Or.inl hb'

/-- Every book row touched by `return_book` gets its flag re-derived. -/
theorem returnBook_flag (db : DB) (lid : Nat) (now : Int) :
    ∀ b' ∈ ((returnBook db lid now).2).books,
      b' ∈ db.books ∨ b'.is_available = decide (b'.available_copies > 0) := by
  intro b' hb'
  unfold returnBook at hb'
  split at hb'
  · exact Or.inl hb'
  · rename_i loan _
    split at hb'
    · exact Or.inl hb'
    · cases hdue : loan.due_date with
      | none =>
          rw [hdue] at hb'
          dsimp only at hb'
          rcases mem_books_bump hb' with h | h
          · exact Or.inl h
          · exact Or.inr h
      | some due =>
          rw [hdue] at hb'
          dsimp only at hb'
          split at hb'
          · split at hb'
            · split at hb'
              · rcases mem_books_bump hb' with h | h
                · rw [getSettings_books] at h
                  exact Or.inl h
                · exact Or.inr h
              · rcases mem_books_bump hb' with h | h
                · rw [getSettings_books] at h
                  exact Or.inl h
                · exact Or.inr h
            · split at hb'
              · rcases mem_books_bump hb' with h | h
                · rw [getSettings_books] at h
                  exact Or.inl h
                · exact Or.inr h
              · rcases mem_books_bump hb' with h | h
                · rw [getSettings_books] at h
                  exact Or.inl h
                · exact Or.inr h
          · rcases mem_books_bump hb' with h | h
            · exact Or.inl h
            · exact Or.inr h

/-- Every book row touched by `cancel_reservation` gets its flag
re-derived. -/
theorem cancelReservation_flag (db : DB) (uid lid : Nat) (now : Int) :
    ∀ b' ∈ ((cancelReservation db uid lid now).2).books,
      b' ∈ db.books ∨ b'.is_available = decide (b'.available_copies > 0) := by
  intro b' hb'
  unfold cancelReservation at hb'
  split at hb'
  · exact Or.inl hb'
  · split at hb'
    · exact Or.inl hb'
    · split at hb'
      · exact Or.inl hb'
      · dsimp only at hb'
        rcases mem_books_bump hb' with h | h
        · exact Or.inl h
        · exact Or.inr h

/-- A create payload with no available copies (schema-valid: the bound is
`0 ≤ available_copies ≤ 1000`). -/
def c7data : BookCreate :=
  { title := "Z", author := "B", isbn := "2222222222",
    total_copies := 1, available_copies := 0 }

def c7db1 : DB := (createBook initialDB c7data).2

/-- The row `create_book` stores for `c7data`: zero copies available, yet
`is_available = true` (the column default). -/
def c7BookZ : Book :=
  { id := 1, title := "Z", author := "B", isbn := "2222222222",
    total_copies := 1, available_copies := 0, is_available := true }

/-- The `update_book` payload that empties the shelf. -/
def c7upd : BookUpdate :=
  { title := none, author := none, isbn := none,
    total_copies := none, available_copies := some 0 }

def c7db2 : DB := (updateBook c1dbB 1 c7upd).2

/-- C7 counterexample: the flag is not derived on CreateBook or UpdateBook.
A schema-valid CreateBook with `available_copies = 0` stores
`is_available = true` (the column default, not `0 > 0`), and a successful
UpdateBook that sets `available_copies` to 0 on a one-copy book leaves the
stale `is_available = true` in place, again violating
`is_available = (available_copies > 0)`. -/
theorem c7_counterexample_flag_not_derived :
    c7data.valid ∧
    (createBook initialDB c7data).1 = .ok c7BookZ ∧
    ¬ (∀ b ∈ c7db1.books, b.is_available = decide (b.available_copies > 0)) ∧
    isOk (updateBook c1dbB 1 c7upd).1 = true ∧
    (c7db2.books.map fun b => (b.available_copies, b.is_available))
      = [(0, true)] ∧
    ¬ (∀ b ∈ c7db2.books, b.is_available = decide (b.available_copies > 0)) := by
  refine ⟨by decide, rfl, ?_, rfl, by decide, ?_⟩
  · intro hall
    exact absurd (hall c7BookZ (by decide)) (by decide)
  · intro hall
    exact absurd
      (hall { id := 1, title := "T", author := "A", isbn := "1111111111",
              total_copies := 1, available_copies := 0, is_available := true }
        (by decide))
      (by decide)

/-- C7 (amended): `is_available` is re-derived as `available_copies > 0` by
every loan-lifecycle mutation of the copy counts (Reserve, AssignLoan,
expired ConfirmPickup, ReturnBook, CancelReservation re-derive it on every
book row they touch), but not by the catalog CRUD: `create_book` always
stores the column default `is_available = true` even when
`available_copies = 0`, and `update_book` copies the flag of the old row
unchanged, so the flag is stale data rather than a derived value on those
two operations (see the counterexample). -/
theorem c7_is_available_derived_amended :
    (∀ (db : DB) (d : BookCreate) (book : Book) (db' : DB),
        createBook db d = (.ok book, db') → book.is_available = true) ∧
    (∀ (db : DB) (bid : Nat) (u : BookUpdate),
        ∀ b' ∈ ((updateBook db bid u).2).books,
          ∃ b ∈ db.books, b'.is_available = b.is_available) ∧
    (∀ (db : DB) (uid bid : Nat) (now : Int),
        ∀ b' ∈ ((reserveBook db uid bid now).2).books,
          b' ∈ db.books ∨ b'.is_available = decide (b'.available_copies > 0)) ∧
    (∀ (db : DB) (uid bid : Nat) (now : Int),
        ∀ b' ∈ ((assignLoan db uid bid now).2).books,
          b' ∈ db.books ∨ b'.is_available = decide (b'.available_copies > 0)) ∧
    (∀ (db : DB) (lid : Nat) (now : Int),
        ∀ b' ∈ ((confirmPickup db lid now).2).books,
          b' ∈ db.books ∨ b'.is_available = decide (b'.available_copies > 0)) ∧
    (∀ (db : DB) (lid : Nat) (now : Int),
        ∀ b' ∈ ((returnBook db lid now).2).books,
          b' ∈ db.books ∨ b'.is_available = decide (b'.available_copies > 0)) ∧
    (∀ (db : DB) (uid lid : Nat) (now : Int),
        ∀ b' ∈ ((cancelReservation db uid lid now).2).books,
          b' ∈ db.books ∨ b'.is_available = decide (b'.available_copies > 0)) :=
  ⟨createBook_flag, updateBook_flag, reserveBook_flag, assignLoan_flag,
   confirmPickup_flag, returnBook_flag, cancelReservation_flag⟩

theorem c7_is_available_derived_amended_witness :
    c7BookZ.is_available = true ∧
    (c1BookC ∈ c1dbB.books ∨
      c1BookC.is_available = decide (c1BookC.available_copies > 0)) :=
  ⟨c7_is_available_derived_amended.1 initialDB c7data c7BookZ c7db1 rfl,
   c7_is_available_derived_amended.2.2.1 c1dbB 7 1 0 c1BookC (by decide)⟩

/-! ### C8: invalid-state errors -/

def c8LoanExpired : Loan := { c1LoanR with status := LoanStatus.EXPIRED }

def c8LoanReturned : Loan := { c1LoanR with status := LoanStatus.RETURNED }

def c8dbX : DB := { c1dbC with loans := [c8LoanExpired] }

def c8dbY : DB := { c1dbC with loans := [c8LoanReturned] }

/-- C8 counterexample: the invalid-state error does not name the loan's
current status.  `confirm_pickup` on an EXPIRED loan and on a RETURNED loan
raise the byte-for-byte identical fixed detail "Only reserved loans can be
picked up": the message names only the required source status and carries no
information about the current one. -/
theorem c8_counterexample_fixed_message :
    c8LoanExpired.status ≠ c8LoanReturned.status ∧
    confirmPickup c8dbX 1 0
      = (.error (HTTPError.mk 400 "Only reserved loans can be picked up"),
         c8dbX) ∧
    confirmPickup c8dbY 1 0
      = (.error (HTTPError.mk 400 "Only reserved loans can be picked up"),
         c8dbY) ∧
    (confirmPickup c8dbX 1 0).1 = (confirmPickup c8dbY 1 0).1 :=
  ⟨by decide, rfl, rfl, rfl⟩

/-- C8 (amended): ConfirmPickup, ReturnBook and CancelReservation invoked on
a loan whose current status is not a valid source state for the operation
fail with HTTP 400 and a fixed detail naming the *required* status ("Only
reserved loans can be picked up" / "Only active loans can be returned" /
"Only reserved loans can be cancelled") — the loan's *current* status is not
part of the message (see the counterexample) — and the database is returned
unchanged.  (For CancelReservation the ownership check precedes the status
check, so the caller must own the loan to reach the invalid-state error.) -/
theorem c8_invalid_state_errors_amended :
    (∀ (db : DB) (lid : Nat) (now : Int) (loan : Loan),
        db.loans.find? (fun l => l.id == lid) = some loan →
        loan.status ≠ LoanStatus.RESERVED →
        confirmPickup db lid now
          = (.error (HTTPError.mk 400 "Only reserved loans can be picked up"),
             db)) ∧
    (∀ (db : DB) (lid : Nat) (now : Int) (loan : Loan),
        db.loans.find? (fun l => l.id == lid) = some loan →
        ¬(loan.status = LoanStatus.ACTIVE ∨ loan.status = LoanStatus.OVERDUE) →
        returnBook db lid now
          = (.error (HTTPError.mk 400 "Only active loans can be returned"),
             db)) ∧
    (∀ (db : DB) (uid lid : Nat) (now : Int) (loan : Loan),
        db.loans.find? (fun l => l.id == lid) = some loan →
        loan.user_id = uid →
        loan.status ≠ LoanStatus.RESERVED →
        cancelReservation db uid lid now
          = (.error (HTTPError.mk 400 "Only reserved loans can be cancelled"),
             db)) := by
  refine ⟨?_, ?_, ?_⟩
  · intro db lid now loan hfind hst
    unfold confirmPickup
    rw [hfind]
    dsimp only
    rw [if_pos hst]
  · intro db lid now loan hfind hst
    unfold returnBook
    rw [hfind]
    dsimp only
    rw [if_pos hst]
  · intro db uid lid now loan hfind howner hst
    unfold cancelReservation
    rw [hfind]
    dsimp only
    rw [if_neg (not_not.mpr howner), if_pos hst]

theorem c8_invalid_state_errors_amended_witness :
    returnBook c8dbX 1 0
      = (.error (HTTPError.mk 400 "Only active loans can be returned"),
         c8dbX) :=
  c8_invalid_state_errors_amended.2.1 c8dbX 1 0 c8LoanExpired rfl (by decide)

/-! ### C10: the silent fine-rate coercion -/

def c10Loan : Loan := { c4Loan with fine_amount := 5 }

def c10db : DB := { c4db with loans := [c10Loan] }

/-- A schema-valid settings update with `daily_fine_amount = 0.0`. -/
def c10u : SettingsUpdate :=
  { pickup_window_days := 2, standard_loan_days := 30, daily_fine_amount := 0 }

/-- C10 counterexample: the rate 0.0 *is* used for fine computation once.
`update_settings` with the schema-valid `daily_fine_amount = 0.0` runs
`_recalculate_overdue_fines` with the raw new rate before any
`get_settings` read can coerce it, so an overdue loan's `fine_amount` is
rewritten from 5 to `days_late * 0 = 0` by that very rate. -/
theorem c10_counterexample_zero_rate_used :
    c10u.valid ∧
    c10db.loans.map Loan.fine_amount = [5] ∧
    ((updateSettings c10db c10u 864000).2).loans.map Loan.fine_amount = [0] ∧
    ((updateSettings c10db c10u 864000).2).loans.map Loan.fine_amount
      ≠ c10db.loans.map Loan.fine_amount := by
  have hloans : ((updateSettings c10db c10u 864000).2).loans
      = List.map (recalcOverdueLoan c10u.daily_fine_amount 864000)
          c10db.loans := by
    unfold updateSettings recalculateOverdueFines
    dsimp only [SystemSettings.fineRate]
    rw [getSettings_loans]
    rfl
  have h0 : ((updateSettings c10db c10u 864000).2).loans.map Loan.fine_amount
      = [0] := by
    rw [hloans]
    show [(recalcOverdueLoan c10u.daily_fine_amount 864000 c10Loan).fine_amount]
      = [0]
    rw [recalcOverdueLoan_eq_of_overdue (Or.inl rfl) rfl (by decide)]
    show [((max 1 (dayNum 864000 - dayNum 0) : ℤ) : ℚ) * c10u.daily_fine_amount]
      = [0]
    rw [show c10u.daily_fine_amount = 0 from rfl, mul_zero]
  have h5 : c10db.loans.map Loan.fine_amount = [5] := rfl
  refine ⟨?_, h5, h0, ?_⟩
  · unfold SettingsUpdate.valid
    exact ⟨by decide, by decide, by decide, by decide,
           by norm_num [c10u], by norm_num [c10u]⟩
  · rw [h0, h5]
    intro hcontra
    injection hcontra with hc
    exact absurd hc (by norm_num)

/-- C10 (amended): `get_settings` silently coerces a stored
`daily_fine_amount` of `None`, exactly `0.0` or exactly `0.5` to the default
`0.1` and persists the coercion; `0.0` passes the schema's `0.0–100.0`
bounds; after `update_settings` with rate `0.0`, the next settings read
reports (and computes fines with) `0.1`, so the stored `0.0` does not
survive any later read.  But the claim's "never used for fine computation"
overreaches: `update_settings` itself reprices every overdue loan with the
raw new rate — `0.0` included — before any coercing read happens (see the
counterexample). -/
theorem c10_fine_rate_coercion_amended :
    (∀ s : SystemSettings,
        (s.daily_fine_amount = none ∨ s.daily_fine_amount = some 0 ∨
          s.daily_fine_amount = some (1/2)) →
        (normalizeSettings s).daily_fine_amount = some (1/10)) ∧
    c10u.valid ∧
    (∀ (db : DB) (u : SettingsUpdate) (now : Int),
        ((updateSettings db u now).2).loans
          = db.loans.map (recalcOverdueLoan u.daily_fine_amount now)) ∧
    (∀ (db : DB) (u : SettingsUpdate) (now : Int),
        u.daily_fine_amount = 0 →
        effFineRate ((updateSettings db u now).2) = 1/10 ∧
        (getSettings ((updateSettings db u now).2)).1.daily_fine_amount
          = some (1/10)) ∧
    (∀ db : DB, ((getSettings db).2).settings = some (getSettings db).1) := by
  refine ⟨?_, ?_, ?_, ?_, ?_⟩
  · intro s hq
    unfold normalizeSettings
    dsimp only
    rw [if_pos hq]
  · unfold SettingsUpdate.valid
    exact ⟨by decide, by decide, by decide, by decide,
           by norm_num [c10u], by norm_num [c10u]⟩
  · intro db u now
    unfold updateSettings recalculateOverdueFines
    dsimp only [SystemSettings.fineRate]
    rw [getSettings_loans]
    rfl
  · intro db u now h0
    have hdb : ((updateSettings db u now).2).settings
        = some { pickup_window_days := some u.pickup_window_days
                 standard_loan_days := some u.standard_loan_days
                 daily_fine_amount := some u.daily_fine_amount } := by
      unfold updateSettings recalculateOverdueFines
      dsimp only
    exact fineRate_getSettings_coerced hdb
      (Or.inr (Or.inl (show some u.daily_fine_amount = some 0 from by
        rw [h0])))
  · intro db
    rw [getSettings_snd db]

theorem c10_fine_rate_coercion_amended_witness :
    (normalizeSettings
        { pickup_window_days := some 2, standard_loan_days := some 30,
          daily_fine_amount := some 0 }).daily_fine_amount = some (1/10) ∧
    (getSettings ((updateSettings c10db c10u 0).2)).1.daily_fine_amount
      = some (1/10) :=
  ⟨c10_fine_rate_coercion_amended.1 _ (Or.inr (Or.inl rfl)),
   (c10_fine_rate_coercion_amended.2.2.2.1 c10db c10u 0 rfl).2⟩

end LibraryMS
